import Mathlib

/-
  Verification of the natural-language date/time resolver and reminder
  scheduler of the chatbot-recordatorios repository.

  Shallow embedding conventions:
  * Python `datetime` values (all in the single fixed zone
    America/Argentina/Buenos_Aires, which has no DST) are modelled by the
    `DateTime` record below; aware datetimes in one zone compare by
    timeline order, modelled by `DateTime.toAbsUs` (microseconds since
    0001-01-01 00:00:00).
  * `datetime.replace(...)` validates its fields and raises `ValueError`
    on an invalid combination; this is modelled by `DateTime.replace?`
    returning `none` for the raising case.  Call sites that wrap the call
    in `try/except ValueError` consume the `none`; call sites with no
    handler propagate it as `PyResult.exn` (an uncaught exception).
  * Text is modelled at word granularity by `List Tok`; the word-boundary
    regexes of the source match whole tokens.  Forms the token grammar
    cannot express (substring matches inside a word, `18hs` unit-suffixed
    numbers, full dates with year, ISO datetimes) are noted where they
    would occur; the corresponding regex alternatives never match a
    modelled input.
-/

namespace ChatbotRecordatorios

/-- Gregorian leap-year test (Python `calendar`/`datetime` rule). -/
def isLeap (y : Nat) : Bool :=
  (y % 4 == 0 && y % 100 != 0) || y % 400 == 0

/-- Number of days of month `m` of year `y` (1 = January). -/
def daysInMonth (y m : Nat) : Nat :=
  if m = 2 then (if isLeap y then 29 else 28)
  else if m = 4 ∨ m = 6 ∨ m = 9 ∨ m = 11 then 30
  else 31

/-- Model of a timezone-aware Python `datetime` in the fixed reference zone. -/
structure DateTime where
  year : Nat
  month : Nat
  day : Nat
  hour : Nat
  minute : Nat
  second : Nat
  micro : Nat
  deriving DecidableEq, Repr

/-- Complete days before January 1 of year `y`, counted from 0001-01-01. -/
def daysBeforeYear (y : Nat) : Nat :=
  365 * (y - 1) + (y - 1) / 4 + (y - 1) / 400 - (y - 1) / 100

/-- Complete days of year `y` before the first of month `m`. -/
def daysBeforeMonth (y m : Nat) : Nat :=
  let leap := if isLeap y then 1 else 0
  match m with
  | 1 => 0
  | 2 => 31
  | 3 => 59 + leap
  | 4 => 90 + leap
  | 5 => 120 + leap
  | 6 => 151 + leap
  | 7 => 181 + leap
  | 8 => 212 + leap
  | 9 => 243 + leap
  | 10 => 273 + leap
  | 11 => 304 + leap
  | 12 => 334 + leap
  | _ => 0

/-- Days since 0001-01-01 (the proleptic Gregorian ordinal minus one). -/
def DateTime.rataDie (t : DateTime) : Nat :=
  daysBeforeYear t.year + daysBeforeMonth t.year t.month + (t.day - 1)

/-- Python `datetime.weekday()`: Monday is 0, Sunday is 6. -/
def DateTime.pyWeekday (t : DateTime) : Nat :=
  t.rataDie % 7

/-- Microseconds since 0001-01-01 00:00:00; aware datetimes in the single
fixed zone compare exactly by this value. -/
def DateTime.toAbsUs (t : DateTime) : Nat :=
  ((((t.rataDie * 24 + t.hour) * 60 + t.minute) * 60 + t.second)) * 1000000 + t.micro

/-- Field validity as checked by the `datetime` constructor
(`MINYEAR = 1`, `MAXYEAR = 9999`). -/
def DateTime.validB (t : DateTime) : Bool :=
  1 ≤ t.year && t.year ≤ 9999 &&
    1 ≤ t.month && t.month ≤ 12 && 1 ≤ t.day && t.day ≤ daysInMonth t.year t.month &&
    t.hour ≤ 23 && t.minute ≤ 59 && t.second ≤ 59 && t.micro ≤ 999999

/-- The date-part wellformedness invariant used by the calendar lemmas
(year-overflow-free fragment of `validB`). -/
def DateTime.dateOkB (t : DateTime) : Bool :=
  1 ≤ t.year && 1 ≤ t.month && t.month ≤ 12 && 1 ≤ t.day &&
    t.day ≤ daysInMonth t.year t.month

/-- Python `datetime.replace` with every field given explicitly; `none`
models the `ValueError` raised on invalid field combinations. -/
def DateTime.replace? (_t : DateTime) (y m d h mi s us : Nat) : Option DateTime :=
  let r : DateTime := ⟨y, m, d, h, mi, s, us⟩
  if r.validB then some r else none

/-- Replace only the time-of-day fields.  Used for the `replace` call sites
whose new values are literals within range and whose date part is untouched,
where CPython's revalidation cannot raise. -/
def DateTime.withTime (t : DateTime) (h mi s us : Nat) : DateTime :=
  { t with hour := h, minute := mi, second := s, micro := us }

/-- The calendar day after `t`, keeping the time of day (one day of
`timedelta` addition). -/
def DateTime.nextDay (t : DateTime) : DateTime :=
  if t.day < daysInMonth t.year t.month then { t with day := t.day + 1 }
  else if t.month < 12 then { t with month := t.month + 1, day := 1 }
  else { t with year := t.year + 1, month := 1, day := 1 }

/-- `t + timedelta(days=n)` for `n ≥ 0`. -/
def DateTime.addDays (t : DateTime) : Nat → DateTime
  | 0 => t
  | n + 1 => (t.addDays n).nextDay

/-- `t + timedelta(seconds=s)` for `s ≥ 0` (microseconds unchanged). -/
def DateTime.addSeconds (t : DateTime) (s : Nat) : DateTime :=
  let tot := t.hour * 3600 + t.minute * 60 + t.second + s
  let t1 := t.addDays (tot / 86400)
  { t1 with hour := tot % 86400 / 3600, minute := tot % 86400 % 3600 / 60,
            second := tot % 86400 % 60 }

/-- Result of running a piece of Python code: a value, or an uncaught
exception escaping the function. -/
inductive PyResult (α : Type) where
  | ok (a : α)
  | exn
  deriving DecidableEq, Repr

/-- Python `str.lower()` restricted to the ASCII case mapping (sufficient
for the lowercase keyword comparisons of the source; accented characters
are compared as written). -/
def pyStrLower (s : String) : String :=
  String.mk (s.data.map Char.toLower)

/-- Python `text[0].upper() + text[1:]`: uppercase only the first
character. -/
def pyCapitalize (s : String) : String :=
  String.mk (match s.data with
             | [] => []
             | c :: cs => Char.toUpper c :: cs)

/-- Character-wise substring test (Python `in` on strings). -/
def strContainsSub (needle : String) : List Char → Bool
  | [] => needle.data.isEmpty
  | c :: cs => needle.data.isPrefixOf (c :: cs) || strContainsSub needle cs

/-- The `weekdays` dictionary used by the weekday parsers
(`{'lunes': 0, ..., 'domingo': 6}`, looked up after `.lower()`). -/
def spanishWeekday (s : String) : Option Nat :=
  if s = "lunes" then some 0
  else if s = "martes" then some 1
  else if s = "miercoles" then some 2
  else if s = "jueves" then some 3
  else if s = "viernes" then some 4
  else if s = "sabado" then some 5
  else if s = "domingo" then some 6
  else none

/-- src/handlers.py `_smart_day_parse(day, now)`: resolve a bare
day-of-month ("el 20") to the current month at 09:00, rolling to the next
month when the candidate is not in the future; a `ValueError` in the first
`try` falls through to the next-month `try`. -/
def smart_day_parse (day : Nat) (now : DateTime) : Option DateTime :=
  if day < 1 ∨ day > 31 then none
  else
    let try1 : Option DateTime :=
      match now.replace? now.year now.month day 9 0 0 0 with
      | none => none
      | some target =>
        if target.toAbsUs ≤ now.toAbsUs then
          if now.month = 12 then
            target.replace? (now.year + 1) 1 target.day target.hour target.minute
              target.second target.micro
          else
            target.replace? target.year (now.month + 1) target.day target.hour target.minute
              target.second target.micro
        else some target
    match try1 with
    | some r => some r
    | none =>
      if now.month = 12 then
        now.replace? (now.year + 1) 1 day 9 0 0 0
      else
        now.replace? now.year (now.month + 1) day 9 0 0 0

/-- src/handlers.py `_smart_date_parse(day, month, now)`: resolve "day/month"
to the current year at 09:00, replacing the year by `now.year + 1` when the
candidate is not in the future; any `ValueError` (including one raised by
the next-year replace, e.g. Feb 29 before a non-leap year) returns `None`. -/
def smart_date_parse (day month : Nat) (now : DateTime) : Option DateTime :=
  if day < 1 ∨ day > 31 ∨ month < 1 ∨ month > 12 then none
  else
    match now.replace? now.year month day 9 0 0 0 with
    | none => none
    | some target =>
      if target.toAbsUs ≤ now.toAbsUs then
        target.replace? (now.year + 1) target.month target.day target.hour target.minute
          target.second target.micro
      else some target

/-- src/handlers.py `_smart_weekday_day_parse(weekday, day, now)`: try the
day in the current month; when its weekday matches and it is not in the
future, roll the same day number to the next month (without re-checking the
weekday); on weekday mismatch or `ValueError` fall through to building the
next-month date and checking its weekday. -/
def smart_weekday_day_parse (weekday : String) (day : Nat) (now : DateTime) : Option DateTime :=
  if day < 1 ∨ day > 31 then none
  else
    match spanishWeekday (pyStrLower weekday) with
    | none => none
    | some target_weekday =>
      let try1 : Option DateTime :=
        match now.replace? now.year now.month day 9 0 0 0 with
        | none => none
        | some target =>
          if target.pyWeekday = target_weekday then
            if target.toAbsUs ≤ now.toAbsUs then
              if now.month = 12 then
                target.replace? (now.year + 1) 1 target.day target.hour target.minute
                  target.second target.micro
              else
                target.replace? target.year (now.month + 1) target.day target.hour target.minute
                  target.second target.micro
            else some target
          else none
      match try1 with
      | some r => some r
      | none =>
        match (if now.month = 12 then
                 now.replace? (now.year + 1) 1 day 9 0 0 0
               else
                 now.replace? now.year (now.month + 1) day 9 0 0 0) with
        | none => none
        | some target =>
          if target.pyWeekday = target_weekday then some target else none

/-- src/handlers.py `_smart_hour_parse(hour, minute, now)`: hours 13-23 are
taken as 24h; for hours 0-12 both the AM and the PM reading are constructed
first (`now.replace(hour=hour+12)` raises `ValueError` when `hour = 12`,
modelled by `PyResult.exn`), then the band heuristic on `now.hour` picks
one. -/
def smart_hour_parse (hour minute : Nat) (now : DateTime) : PyResult (Option DateTime) :=
  if hour < 0 ∨ hour > 23 ∨ minute < 0 ∨ minute > 59 then .ok none
  else if 13 ≤ hour then
    match now.replace? now.year now.month now.day hour minute 0 0 with
    | none => .exn
    | some target =>
      .ok (some (if target.toAbsUs ≤ now.toAbsUs then target.addDays 1 else target))
  else
    match now.replace? now.year now.month now.day hour minute 0 0 with
    | none => .exn
    | some am =>
      match now.replace? now.year now.month now.day (hour + 12) minute 0 0 with
      | none => .exn
      | some pm =>
        if now.hour < 6 then
          .ok (some (if now.toAbsUs < am.toAbsUs then am
                     else if now.toAbsUs < pm.toAbsUs then pm
                     else am.addDays 1))
        else if 6 ≤ now.hour ∧ now.hour < 12 then
          .ok (some (if now.toAbsUs < am.toAbsUs then am
                     else if now.toAbsUs < pm.toAbsUs then pm
                     else am.addDays 1))
        else
          if 6 ≤ hour ∧ hour ≤ 11 ∧ now.toAbsUs < pm.toAbsUs then .ok (some pm)
          else if 1 ≤ hour ∧ hour ≤ 5 then
            .ok (some (if now.toAbsUs < pm.toAbsUs then pm else am.addDays 1))
          else if hour = 12 then
            .ok (some (if now.toAbsUs < pm.toAbsUs then pm else am.addDays 1))
          else
            .ok (some (if now.toAbsUs < am.toAbsUs then am
                       else if now.toAbsUs < pm.toAbsUs then pm
                       else am.addDays 1))

/-- src/handlers.py `_smart_next_weekday_parse(weekday, now)`: the strictly
next date with the requested weekday (if `days_ahead <= 0`, add 7), at
09:00. -/
def smart_next_weekday_parse (weekday : String) (now : DateTime) : Option DateTime :=
  match spanishWeekday (pyStrLower weekday) with
  | none => none
  | some target_weekday =>
    let current_weekday := now.pyWeekday
    let days_ahead : Int := (target_weekday : Int) - (current_weekday : Int)
    let days_ahead := if days_ahead ≤ 0 then days_ahead + 7 else days_ahead
    some ((now.addDays days_ahead.toNat).withTime 9 0 0 0)

/-
  Reminder store and scheduling engine (src/db.py, src/scheduler.py).

  Reminder text is carried as a token list (see `Tok` below); the scheduler
  treats it opaquely.
-/

/-- Word-level model of the message text.  A token is an alphabetic word, a
bare integer (with the number of digits as typed, so the regex quantifiers
`\d{1,2}` / `\d{2}` can be evaluated), a day/month pair written `d/m` or
`d-m`, or a clock time written `h:mm`. -/
inductive Tok where
  | word (s : String)
  | num (n : Nat) (digits : Nat)
  | slashDM (d m : Nat) (dd dm : Nat)
  | colonT (h mi : Nat) (dh dm : Nat)
  deriving DecidableEq, Repr

/-- `status` column of a reminder row. -/
inductive Status where
  | active
  | sent
  | cancelled
  | completed
  deriving DecidableEq, Repr

/-- A row of the `reminders` table as used by the one-shot scheduler path
(id, chat_id, text, datetime, status, category). -/
structure RegReminder where
  id : Nat
  chat_id : Int
  text : List Tok
  datetime : DateTime
  status : Status
  category : String
  deriving DecidableEq, Repr

/-- A persisted important (recurring) reminder as consumed by
`load_pending_reminders` / `schedule_important_reminder`
(id, chat_id, text, datetime, repeat_interval, last_sent). -/
structure ImpReminder where
  id : Nat
  chat_id : Int
  text : List Tok
  datetime : DateTime
  repeat_interval : Nat
  last_sent : Option DateTime
  deriving DecidableEq, Repr

/-- The persistence collaborator's state.  `reminders` is the `reminders`
table; `important` models the important-reminder store, whose accessors
(`get_active_important_reminders`, `update_reminder_last_sent`) are called
by src/scheduler.py but are absent from src/db.py, so it is modelled from
the spec as the collection of persisted recurring reminders not yet
completed. -/
structure Db where
  reminders : List RegReminder
  important : List ImpReminder
  deriving DecidableEq, Repr

/-- src/db.py `get_all_active_reminders()`: every reminder row whose status
is `active`. -/
def get_all_active_reminders (db : Db) : List RegReminder :=
  db.reminders.filter (fun r => r.status = Status.active)

/-- src/db.py `mark_reminder_sent(reminder_id)`: set `status = 'sent'` on
the rows with this id. -/
def mark_reminder_sent (db : Db) (reminder_id : Nat) : Db :=
  { db with reminders :=
      db.reminders.map (fun r =>
        if r.id = reminder_id then { r with status := Status.sent } else r) }

/-- Modelled from the spec: `db.get_active_important_reminders()` is called
by src/scheduler.py but not defined in src/db.py; per the spec it returns
every persisted recurring reminder not yet completed, which is exactly the
`important` collection of the modelled store. -/
def get_active_important_reminders (db : Db) : List ImpReminder :=
  db.important

/-- Modelled from the spec: `db.update_reminder_last_sent(reminder_id)` is
called by src/scheduler.py but not defined in src/db.py; per the spec it
updates `last_notified_at` of the record to the time of the successful
recurring fire. -/
def update_reminder_last_sent (db : Db) (reminder_id : Nat) (fire_time : DateTime) : Db :=
  { db with important :=
      db.important.map (fun r =>
        if r.id = reminder_id then { r with last_sent := some fire_time } else r) }

/-- APScheduler job id.  The source uses the strings
`reminder_{reminder_id}` and `important_reminder_{reminder_id}`; both forms
are injective and mutually distinct, modelled by a tagged id. -/
inductive JobId where
  | regular (reminder_id : Nat)
  | important (reminder_id : Nat)
  deriving DecidableEq, Repr

/-- An APScheduler trigger: `DateTrigger(run_date=..)` or
`IntervalTrigger(minutes=.., start_date=..)`. -/
inductive Trigger where
  | date (run_date : DateTime)
  | interval (minutes : Nat) (start_date : DateTime)
  deriving DecidableEq, Repr

/-- A registered timer in the scheduler's registry. -/
structure Job where
  id : JobId
  chat_id : Int
  text : List Tok
  trigger : Trigger
  deriving DecidableEq, Repr

/-- src/scheduler.py `schedule_reminder`: register a one-shot
`DateTrigger` job with id `reminder_{reminder_id}`. -/
def schedule_reminder (jobs : List Job) (chat_id : Int) (reminder_id : Nat)
    (text : List Tok) (datetime_obj : DateTime) : List Job :=
  jobs ++ [⟨JobId.regular reminder_id, chat_id, text, Trigger.date datetime_obj⟩]

/-- src/scheduler.py `schedule_important_reminder`: look the reminder up in
`get_active_important_reminders()`; when absent, log an error and register
nothing; otherwise register an `IntervalTrigger` job with id
`important_reminder_{reminder_id}` starting at `datetime_obj`. -/
def schedule_important_reminder (db : Db) (jobs : List Job) (reminder_id : Nat)
    (datetime_obj : DateTime) (repeat_interval : Nat) : List Job :=
  match (get_active_important_reminders db).find? (fun r => r.id = reminder_id) with
  | none => jobs
  | some r =>
    jobs ++ [⟨JobId.important reminder_id, r.chat_id, r.text,
              Trigger.interval repeat_interval datetime_obj⟩]

/-- A notification actually delivered to the chat transport. -/
structure Notification where
  chat_id : Int
  reminder_id : Nat
  text : List Tok
  important : Bool
  deriving DecidableEq, Repr

/-- Outcome of the chat transport's `bot.send_message` call: it returns, or
it raises. -/
inductive SendOutcome where
  | success
  | failure
  deriving DecidableEq, Repr

/-- src/scheduler.py `send_reminder`: inside `try`, send the message and
then `mark_reminder_sent`; `except` catches any exception (a failed send
reaches neither the mark nor a crash), so the function always returns
normally. -/
def send_reminder (outcome : SendOutcome) (db : Db) (chat_id : Int)
    (reminder_id : Nat) (text : List Tok) : PyResult (Db × List Notification) :=
  match outcome with
  | .success => .ok (mark_reminder_sent db reminder_id, [⟨chat_id, reminder_id, text, false⟩])
  | .failure => .ok (db, [])

/-- src/scheduler.py `send_important_reminder`: inside `try`, send the
message and then `update_reminder_last_sent`; `except` catches any
exception, so the function always returns normally. -/
def send_important_reminder (outcome : SendOutcome) (db : Db) (chat_id : Int)
    (reminder_id : Nat) (text : List Tok) (fire_time : DateTime) :
    PyResult (Db × List Notification) :=
  match outcome with
  | .success =>
    .ok (update_reminder_last_sent db reminder_id fire_time,
         [⟨chat_id, reminder_id, text, true⟩])
  | .failure => .ok (db, [])

/-- The regular-reminder loop of src/scheduler.py `load_pending_reminders`:
rows with a future `datetime` are re-scheduled; the rest are marked sent
("expired on restart"). -/
def processRegulars (now : DateTime) (db : Db) (jobs : List Job) :
    List RegReminder → Db × List Job
  | [] => (db, jobs)
  | r :: rs =>
    if now.toAbsUs < r.datetime.toAbsUs then
      processRegulars now db (schedule_reminder jobs r.chat_id r.id r.text r.datetime) rs
    else
      processRegulars now (mark_reminder_sent db r.id) jobs rs

/-- The important-reminder loop of src/scheduler.py `load_pending_reminders`:
a past-due reminder is given a kickoff start `now + 5s` when it was never
sent or the repeat interval has elapsed since `last_sent`, and otherwise
`should_schedule` stays false and nothing is registered; a future reminder
is re-registered at its own `datetime`. -/
def processImportants (now : DateTime) (db : Db) (jobs : List Job) :
    List ImpReminder → Db × List Job
  | [] => (db, jobs)
  | r :: rs =>
    if r.datetime.toAbsUs ≤ now.toAbsUs then
      match r.last_sent with
      | none =>
        processImportants now db
          (schedule_important_reminder db jobs r.id (now.addSeconds 5) r.repeat_interval) rs
      | some last_sent =>
        if (now.toAbsUs : Int) - (last_sent.toAbsUs : Int) ≥
            (r.repeat_interval : Int) * 60 * 1000000 then
          processImportants now db
            (schedule_important_reminder db jobs r.id (now.addSeconds 5) r.repeat_interval) rs
        else
          processImportants now db jobs rs
    else
      processImportants now db
        (schedule_important_reminder db jobs r.id r.datetime r.repeat_interval) rs

/-- src/scheduler.py `load_pending_reminders`: rehydrate the timer registry
from the store on startup, starting from the empty registry. -/
def load_pending_reminders (db : Db) (now : DateTime) : Db × List Job :=
  processImportants now
    (processRegulars now db [] (get_all_active_reminders db)).1
    (processRegulars now db [] (get_all_active_reminders db)).2
    (get_active_important_reminders (processRegulars now db [] (get_all_active_reminders db)).1)

/-
  Token-level regex machinery for src/handlers.py `extract_date_and_text`.

  A pattern is a function that tries to match at the head of a token list
  and returns its captures together with the length of the matched token
  span.  `reSearch` is `re.search` (first match, scanning left to right);
  `reSubAll` is `re.sub(pattern, '', text)` (every non-overlapping match
  removed, scanning left to right and resuming after each match).
-/

/-- First match of the pattern in the token list (`re.search`). -/
def reSearch {γ : Type} (tryAt : List Tok → Option (γ × Nat)) : List Tok → Option γ
  | [] => Option.map Prod.fst (tryAt [])
  | t :: ts =>
    match tryAt (t :: ts) with
    | some (g, _) => some g
    | none => reSearch tryAt ts

/-- Remove every non-overlapping match of the pattern
(`re.sub(pattern, '', text)`); structural recursion on a fuel that starts
at the list length (a match consumes at least one token, so the fuel never
runs out). -/
def reSubAllAux {γ : Type} (tryAt : List Tok → Option (γ × Nat)) : Nat → List Tok → List Tok
  | _, [] => []
  | 0, l => l
  | fuel + 1, t :: ts =>
    match tryAt (t :: ts) with
    | some (_, len) => reSubAllAux tryAt fuel (List.drop (len - 1) ts)
    | none => t :: reSubAllAux tryAt fuel ts

/-- Remove every non-overlapping match of the pattern
(`re.sub(pattern, '', text)`). -/
def reSubAll {γ : Type} (tryAt : List Tok → Option (γ × Nat)) (l : List Tok) : List Tok :=
  reSubAllAux tryAt l.length l

/-- First match of the pattern together with the matched token span
(`match.group(0)`). -/
def reSearchSpan {γ : Type} (tryAt : List Tok → Option (γ × Nat)) :
    List Tok → Option (γ × List Tok)
  | [] => Option.map (fun g => (g.1, List.take g.2 [])) (tryAt [])
  | t :: ts =>
    match tryAt (t :: ts) with
    | some (g, len) => some (g, List.take len (t :: ts))
    | none => reSearchSpan tryAt ts

/-- `text.replace(needle, '')` at token level (fuel-structural, as for
`reSubAllAux`). -/
def removeSeqAllAux (needle : List Tok) : Nat → List Tok → List Tok
  | _, [] => []
  | 0, l => l
  | fuel + 1, t :: ts =>
    if needle ≠ [] ∧ needle.isPrefixOf (t :: ts) then
      removeSeqAllAux needle fuel (List.drop (needle.length - 1) ts)
    else
      t :: removeSeqAllAux needle fuel ts

/-- `text.replace(needle, '')` at token level: remove every occurrence of
the contiguous token sequence `needle`. -/
def removeSeqAll (needle : List Tok) (l : List Tok) : List Tok :=
  removeSeqAllAux needle l.length l

/-- Pattern 1 of the smart patterns,
`\b(?:el\s+)?(lunes|...|domingo)\s+(\d{1,2})\b`, without the optional
leading `el`. -/
def p1TryAtCore (ts : List Tok) : Option ((String × Nat) × Nat) :=
  match ts with
  | Tok.word w :: Tok.num n dd :: _ =>
    if (spanishWeekday (pyStrLower w)).isSome ∧ dd ≤ 2 then some ((w, n), 2) else none
  | _ => none

/-- Pattern 1 of the smart patterns (weekday followed by a 1-2 digit day,
with an optional leading `el` included in the match span). -/
def p1TryAt (ts : List Tok) : Option ((String × Nat) × Nat) :=
  match ts with
  | Tok.word e :: Tok.word w :: Tok.num n dd :: _ =>
    if (pyStrLower e) = "el" ∧ (spanishWeekday (pyStrLower w)).isSome ∧ dd ≤ 2 then
      some ((w, n), 3)
    else p1TryAtCore ts
  | _ => p1TryAtCore ts

/-- Pattern 2 of the smart patterns,
`\b(?:el\s+)?(lunes|...|domingo)\s+que\s+viene\b`, without the leading
`el`. -/
def p2TryAtCore (ts : List Tok) : Option (String × Nat) :=
  match ts with
  | Tok.word w :: Tok.word q :: Tok.word v :: _ =>
    if (spanishWeekday (pyStrLower w)).isSome ∧ (pyStrLower q) = "que" ∧ (pyStrLower v) = "viene" then
      some (w, 3)
    else none
  | _ => none

/-- Pattern 2 of the smart patterns ("weekday que viene" with an optional
leading `el`). -/
def p2TryAt (ts : List Tok) : Option (String × Nat) :=
  match ts with
  | Tok.word e :: Tok.word w :: Tok.word q :: Tok.word v :: _ =>
    if (pyStrLower e) = "el" ∧ (spanishWeekday (pyStrLower w)).isSome ∧ (pyStrLower q) = "que" ∧
        (pyStrLower v) = "viene" then
      some (w, 4)
    else p2TryAtCore ts
  | _ => p2TryAtCore ts

/-- Pattern 3 of the smart patterns, `\bel\s+(\d{1,2})\b(?![\/\-:])` (the
lookahead is automatic at token level: a day/month or clock token is not a
bare number token). -/
def p3TryAt (ts : List Tok) : Option (Nat × Nat) :=
  match ts with
  | Tok.word e :: Tok.num n dd :: _ =>
    if (pyStrLower e) = "el" ∧ dd ≤ 2 then some (n, 2) else none
  | _ => none

/-- Pattern 4 of the smart patterns,
`\b(?:el\s+)?(\d{1,2})[\/\-](\d{1,2})\b(?![\-:])`, without the leading
`el`. -/
def p4TryAtCore (ts : List Tok) : Option ((Nat × Nat) × Nat) :=
  match ts with
  | Tok.slashDM d m dd dm :: _ =>
    if dd ≤ 2 ∧ dm ≤ 2 then some ((d, m), 1) else none
  | _ => none

/-- Pattern 4 of the smart patterns (a day/month token with an optional
leading `el`). -/
def p4TryAt (ts : List Tok) : Option ((Nat × Nat) × Nat) :=
  match ts with
  | Tok.word e :: Tok.slashDM d m dd dm :: _ =>
    if (pyStrLower e) = "el" ∧ dd ≤ 2 ∧ dm ≤ 2 then some ((d, m), 2) else p4TryAtCore ts
  | _ => p4TryAtCore ts

/-- Pattern 5 of the smart patterns,
`\ba\s*las?\s+(\d{1,2})(?::(\d{2}))?\b`: the word `a`, then `la` or `las`,
then either a bare 1-2 digit hour (minute defaults to 0) or an `h:mm`
clock token. -/
def p5TryAt (ts : List Tok) : Option ((Nat × Nat) × Nat) :=
  match ts with
  | Tok.word a :: Tok.word las :: rest =>
    if (pyStrLower a) = "a" ∧ ((pyStrLower las) = "la" ∨ (pyStrLower las) = "las") then
      match rest with
      | Tok.num n dd :: _ => if dd ≤ 2 then some ((n, 0), 3) else none
      | Tok.colonT h mi dh dm :: _ =>
        if dh ≤ 2 ∧ dm = 2 then some ((h, mi), 3) else none
      | _ => none
    else none
  | _ => none

/-- Does the lowercase word start with one of the given regex-expansion
prefixes?  Used for unit words such as `m(?:in)?(?:utos?)?`, whose regex
may consume only a prefix of the written word; the embedding removes the
whole word token in that case. -/
def startsWithOneOf (s : String) (ps : List String) : Bool :=
  ps.any (fun p => p.data.isPrefixOf s.data)

/-- Relative pattern `en\s+(\d+)\s*m(?:in)?(?:utos?)?`. -/
def relMinTryAt (ts : List Tok) : Option (Nat × Nat) :=
  match ts with
  | Tok.word e :: Tok.num n _ :: Tok.word u :: _ =>
    if (pyStrLower e) = "en" ∧
        startsWithOneOf (pyStrLower u) ["minutos", "minuto", "min", "mutos", "muto", "m"] then
      some (n, 3)
    else none
  | _ => none

/-- Relative pattern `en\s+(\d+)\s*h(?:oras?)?`. -/
def relHourTryAt (ts : List Tok) : Option (Nat × Nat) :=
  match ts with
  | Tok.word e :: Tok.num n _ :: Tok.word u :: _ =>
    if (pyStrLower e) = "en" ∧ startsWithOneOf (pyStrLower u) ["horas", "hora", "h"] then
      some (n, 3)
    else none
  | _ => none

/-- Relative pattern `en\s+(\d+)\s*d(?:ias?)?`. -/
def relDayTryAt (ts : List Tok) : Option (Nat × Nat) :=
  match ts with
  | Tok.word e :: Tok.num n _ :: Tok.word u :: _ =>
    if (pyStrLower e) = "en" ∧ startsWithOneOf (pyStrLower u) ["dias", "dia", "d"] then
      some (n, 3)
    else none
  | _ => none

/-- One of the keywords `mañana|tomorrow`. -/
def isMananaWord (s : String) : Bool :=
  (pyStrLower s) = "mañana" || (pyStrLower s) = "tomorrow"

/-- One of the keywords `hoy|today`. -/
def isHoyWord (s : String) : Bool :=
  (pyStrLower s) = "hoy" || (pyStrLower s) = "today"

/-- The time alternatives of broad pattern 1,
`\d{1,2}:\d{2} | \d{1,2}hs? | \d{1,2}\s*de\s*la\s*(mañana|tarde|noche) |
antes\s*de\s*las?\s*\d{1,2}`, as a match length at the current position.
The `hs`-suffixed form is a single lexeme outside the token grammar and
never matches a modelled input. -/
def timePartFullAt (ts : List Tok) : Option Nat :=
  match ts with
  | Tok.colonT _ _ dh dm :: _ => if dh ≤ 2 ∧ dm = 2 then some 1 else none
  | Tok.num _ dd :: Tok.word de :: Tok.word la :: Tok.word w :: _ =>
    if dd ≤ 2 ∧ (pyStrLower de) = "de" ∧ (pyStrLower la) = "la" ∧
        ((pyStrLower w) = "mañana" ∨ (pyStrLower w) = "tarde" ∨ (pyStrLower w) = "noche") then
      some 4
    else none
  | Tok.word antes :: Tok.word de :: Tok.word las :: Tok.num _ dd :: _ =>
    if (pyStrLower antes) = "antes" ∧ (pyStrLower de) = "de" ∧
        ((pyStrLower las) = "la" ∨ (pyStrLower las) = "las") ∧ dd ≤ 2 then
      some 4
    else none
  | _ => none

/-- The time alternatives of broad patterns 2 and 5,
`\d{1,2}:\d{2} | \d{1,2}hs?` (the second form is outside the token
grammar). -/
def timePartClockAt (ts : List Tok) : Option Nat :=
  match ts with
  | Tok.colonT _ _ dh dm :: _ => if dh ≤ 2 ∧ dm = 2 then some 1 else none
  | _ => none

/-- Non-greedy `.*?` up to the first position where `timeAt` matches:
returns the total span length from the keyword (already `consumed` tokens)
through the end of the time part. -/
def findTimePart (timeAt : List Tok → Option Nat) : List Tok → Nat → Option Nat
  | ts, consumed =>
    match timeAt ts with
    | some l => some (consumed + l)
    | none =>
      match ts with
      | [] => none
      | _ :: rest => findTimePart timeAt rest (consumed + 1)

/-- Broad pattern 1,
`\b(?:mañana|tomorrow)\b.*?(?:time-alternatives)`. -/
def bp1TryAt (ts : List Tok) : Option (Unit × Nat) :=
  match ts with
  | Tok.word w :: rest =>
    if isMananaWord w then
      (findTimePart timePartFullAt rest 1).map (fun len => ((), len))
    else none
  | _ => none

/-- Broad pattern 2 without the optional `el`,
`\b(weekday)\b.*?(?:\d{1,2}:\d{2}|\d{1,2}hs?)`. -/
def bp2TryAtCore (ts : List Tok) : Option (Unit × Nat) :=
  match ts with
  | Tok.word w :: rest =>
    if (spanishWeekday (pyStrLower w)).isSome then
      (findTimePart timePartClockAt rest 1).map (fun len => ((), len))
    else none
  | _ => none

/-- Broad pattern 2, `\b(?:el\s+)?(weekday)\b.*?(?:\d{1,2}:\d{2}|\d{1,2}hs?)`. -/
def bp2TryAt (ts : List Tok) : Option (Unit × Nat) :=
  match ts with
  | Tok.word e :: Tok.word w :: rest =>
    if (pyStrLower e) = "el" ∧ (spanishWeekday (pyStrLower w)).isSome then
      (findTimePart timePartClockAt rest 2).map (fun len => ((), len))
    else bp2TryAtCore ts
  | _ => bp2TryAtCore ts

/-- Broad pattern 3, `\b\d{1,2}[\/\-]\d{1,2}[\/\-]\d{2,4}\b...`: a full
date with year is a single lexeme outside the token grammar, so this
pattern never matches a modelled input. -/
def bp3TryAt (_ts : List Tok) : Option (Unit × Nat) :=
  none

/-- Broad pattern 4, `\b\d{4}-\d{1,2}-\d{1,2}\s+\d{1,2}:\d{2}\b`: an ISO
datetime is outside the token grammar, so this pattern never matches a
modelled input. -/
def bp4TryAt (_ts : List Tok) : Option (Unit × Nat) :=
  none

/-- Broad pattern 5, `\b(?:hoy|today)\b.*?(?:\d{1,2}:\d{2}|\d{1,2}hs?)`. -/
def bp5TryAt (ts : List Tok) : Option (Unit × Nat) :=
  match ts with
  | Tok.word w :: rest =>
    if isHoyWord w then
      (findTimePart timePartClockAt rest 1).map (fun len => ((), len))
    else none
  | _ => none

/-- Broad pattern 6, `\bantes\s*de\s*las?\s*\d{1,2}(?::\d{2})?\b`. -/
def bp6TryAt (ts : List Tok) : Option (Unit × Nat) :=
  match ts with
  | Tok.word antes :: Tok.word de :: Tok.word las :: rest =>
    if (pyStrLower antes) = "antes" ∧ (pyStrLower de) = "de" ∧
        ((pyStrLower las) = "la" ∨ (pyStrLower las) = "las") then
      match rest with
      | Tok.num _ dd :: _ => if dd ≤ 2 then some ((), 4) else none
      | Tok.colonT _ _ dh dm :: _ => if dh ≤ 2 ∧ dm = 2 then some ((), 4) else none
      | _ => none
    else none
  | _ => none

/-- Broad pattern 7, `\b\d{1,2}:\d{2}\b`. -/
def bp7TryAt (ts : List Tok) : Option (Unit × Nat) :=
  match ts with
  | Tok.colonT _ _ dh dm :: _ => if dh ≤ 2 ∧ dm = 2 then some ((), 1) else none
  | _ => none

/-- `date_patterns` of `extract_date_and_text`, in source order. -/
def datePatterns : List (List Tok → Option (Unit × Nat)) :=
  [bp1TryAt, bp2TryAt, bp3TryAt, bp4TryAt, bp5TryAt, bp6TryAt, bp7TryAt]

/-- No-time pattern 1, `\b(?:mañana|tomorrow)\b`. -/
def np1TryAt (ts : List Tok) : Option (Unit × Nat) :=
  match ts with
  | Tok.word w :: _ => if isMananaWord w then some ((), 1) else none
  | _ => none

/-- No-time pattern 2 without the optional `el`, `\b(weekday)\b`. -/
def np2TryAtCore (ts : List Tok) : Option (Unit × Nat) :=
  match ts with
  | Tok.word w :: _ => if (spanishWeekday (pyStrLower w)).isSome then some ((), 1) else none
  | _ => none

/-- No-time pattern 2, `\b(?:el\s+)?(weekday)\b`. -/
def np2TryAt (ts : List Tok) : Option (Unit × Nat) :=
  match ts with
  | Tok.word e :: Tok.word w :: _ =>
    if (pyStrLower e) = "el" ∧ (spanishWeekday (pyStrLower w)).isSome then some ((), 2)
    else np2TryAtCore ts
  | _ => np2TryAtCore ts

/-- No-time pattern 3, `\b(?:hoy|today)\b`. -/
def np3TryAt (ts : List Tok) : Option (Unit × Nat) :=
  match ts with
  | Tok.word w :: _ => if isHoyWord w then some ((), 1) else none
  | _ => none

/-- `date_patterns_no_time` of `extract_date_and_text`, in source order. -/
def noTimePatterns : List (List Tok → Option (Unit × Nat)) :=
  [np1TryAt, np2TryAt, np3TryAt]

/-- `for pattern in patterns: match = re.search(pattern, text)` — the span
of the first pattern (in list order) that matches. -/
def findFirstBroad : List (List Tok → Option (Unit × Nat)) → List Tok → Option (List Tok)
  | [], _ => none
  | p :: ps, text =>
    match reSearchSpan p text with
    | some (_, span) => some span
    | none => findFirstBroad ps text

/-- An input handed to the external `dateparser.parse` collaborator:
either a fragment of the message, or the synthetic
`f"{date_base} {hour-1}:00"` string built by the "antes de las" handler
(carrying the anchor date and the already-decremented hour). -/
inductive ParseQuery where
  | toks (ts : List Tok)
  | anchored (y m d : Nat) (hour : Int)
  deriving DecidableEq, Repr

/-- Is `"antes de las"` a substring of the lowercased matched text? -/
def spanHasAntesDeLas : List Tok → Bool
  | Tok.word a :: Tok.word d :: Tok.word l :: rest =>
    ((pyStrLower a) = "antes" && (pyStrLower d) = "de" && (pyStrLower l) = "las") ||
      spanHasAntesDeLas (Tok.word d :: Tok.word l :: rest)
  | _ :: rest => spanHasAntesDeLas rest
  | [] => false

/-- First `(\d{1,2})(?::\d{2})?` in the matched text: the leading 1-2
digits of the first numeric or clock token (for a longer digit run the
regex takes its first two digits). -/
def firstHourIn : List Tok → Option Nat
  | [] => none
  | Tok.num n dd :: _ => some (if dd ≤ 2 then n else n / 10 ^ (dd - 2))
  | Tok.colonT h _ dh _ :: _ => some (if dh ≤ 2 then h else h / 10 ^ (dh - 2))
  | _ :: rest => firstHourIn rest

/-- First `mañana|tomorrow|hoy|today` keyword in the matched text:
`some true` for the tomorrow words, `some false` for the today words. -/
def firstBaseDateIn : List Tok → Option Bool
  | [] => none
  | Tok.word w :: rest =>
    if isMananaWord w then some true
    else if isHoyWord w then some false
    else firstBaseDateIn rest
  | _ :: rest => firstBaseDateIn rest

/-- Does any word of the whole text contain the substring `tarde`? -/
def textHasTarde (ts : List Tok) : Bool :=
  ts.any (fun t =>
    match t with
    | Tok.word w => strContainsSub "tarde" (pyStrLower w).data
    | _ => false)

/-- The `"antes de las" in date_text.lower()` handler of
`extract_date_and_text`: extract the referenced hour, add 12 when the whole
text mentions `tarde` and the hour is ≤ 12, and when the matched text also
names a base day (`mañana`/`hoy`), rebuild the query as the synthetic
anchored string with one hour subtracted. -/
def antesTransform (now : DateTime) (text : List Tok) (span : List Tok) : ParseQuery :=
  if spanHasAntesDeLas span then
    match firstHourIn span with
    | none => ParseQuery.toks span
    | some h0 =>
      let hour := if textHasTarde text ∧ h0 ≤ 12 then h0 + 12 else h0
      match firstBaseDateIn span with
      | none => ParseQuery.toks span
      | some isTomorrow =>
        let base := if isTomorrow then now.addDays 1 else now
        ParseQuery.anchored base.year base.month base.day ((hour : Int) - 1)
  else ParseQuery.toks span

/-- Final payload cleanup of `extract_date_and_text`:
`re.sub(r'^\s*que\s+', '', remaining_text)` (a leading `que` is dropped
only when more text follows), then the `"recordatorio"` placeholder when
the remainder is empty. -/
def finishFallback (dateparse : ParseQuery → Option DateTime)
    (query : ParseQuery) (remaining : List Tok) (use_default_time : Bool) :
    Option (DateTime × List Tok) :=
  match dateparse query with
  | none => none
  | some parsed0 =>
    let parsed := if use_default_time then parsed0.withTime 9 0 0 0 else parsed0
    let remaining1 :=
      match remaining with
      | Tok.word q :: rest => if (pyStrLower q) = "que" ∧ rest ≠ [] then rest else remaining
      | _ => remaining
    some (parsed, if remaining1 = [] then [Tok.word "recordatorio"] else remaining1)

/-- The broad-pattern / dateparser fallback section of
`extract_date_and_text` (everything after the smart and relative pattern
loops). -/
def fallbackExtract (dateparse : ParseQuery → Option DateTime) (now : DateTime)
    (text : List Tok) : Option (DateTime × List Tok) :=
  match findFirstBroad datePatterns text with
  | some span =>
    finishFallback dateparse (antesTransform now text span) (removeSeqAll span text) false
  | none =>
    match findFirstBroad noTimePatterns text with
    | some span =>
      finishFallback dateparse (ParseQuery.toks span) (removeSeqAll span text) true
    | none =>
      match dateparse (ParseQuery.toks text) with
      | some parsed => some (parsed, [Tok.word "recordatorio"])
      | none => none

/-- The per-match tail of the smart-pattern loop (lines 1477-1499 of
src/handlers.py): after a smart pattern resolved `datetime_obj` and its
matches were removed from the text, a remaining `a las H(:MM)?` sub-phrase
is merged into the already-resolved date (via `_smart_hour_parse` for
hours ≤ 12, whose `hour = 12` case raises, or a direct `replace` for
larger hours, which raises above 23) and removed from the payload. -/
def smartFinish (datetime_obj : DateTime) (clean_text : List Tok) :
    PyResult (Option (DateTime × List Tok)) :=
  match reSearch p5TryAt clean_text with
  | none => .ok (some (datetime_obj, clean_text))
  | some (hour, minute) =>
    if hour ≤ 12 then
      match smart_hour_parse hour minute datetime_obj with
      | .exn => .exn
      | .ok none => .ok (some (datetime_obj, reSubAll p5TryAt clean_text))
      | .ok (some time_obj) =>
        .ok (some ({ datetime_obj with hour := time_obj.hour, minute := time_obj.minute },
                   reSubAll p5TryAt clean_text))
    else
      match datetime_obj.replace? datetime_obj.year datetime_obj.month datetime_obj.day
          hour minute datetime_obj.second datetime_obj.micro with
      | none => .exn
      | some d2 => .ok (some (d2, reSubAll p5TryAt clean_text))

/-- Smart pattern 5 (continuation of `trySmartPatterns`); its resolver is
`_smart_hour_parse`, which can raise. -/
def trySmartPatterns5 (now : DateTime) (text : List Tok) :
    PyResult (Option (DateTime × List Tok)) :=
  match reSearch p5TryAt text with
  | some hm =>
    match smart_hour_parse hm.1 hm.2 now with
    | .exn => .exn
    | .ok (some dtv) => smartFinish dtv (reSubAll p5TryAt text)
    | .ok none => .ok none
  | none => .ok none

/-- Smart patterns 4-5 (continuation of `trySmartPatterns`). -/
def trySmartPatterns4 (now : DateTime) (text : List Tok) :
    PyResult (Option (DateTime × List Tok)) :=
  match reSearch p4TryAt text with
  | some dm =>
    match smart_date_parse dm.1 dm.2 now with
    | some dtv => smartFinish dtv (reSubAll p4TryAt text)
    | none => trySmartPatterns5 now text
  | none => trySmartPatterns5 now text

/-- Smart patterns 3-5 (continuation of `trySmartPatterns`). -/
def trySmartPatterns3 (now : DateTime) (text : List Tok) :
    PyResult (Option (DateTime × List Tok)) :=
  match reSearch p3TryAt text with
  | some n =>
    match smart_day_parse n now with
    | some dtv => smartFinish dtv (reSubAll p3TryAt text)
    | none => trySmartPatterns4 now text
  | none => trySmartPatterns4 now text

/-- Smart patterns 2-5 (continuation of `trySmartPatterns`). -/
def trySmartPatterns2 (now : DateTime) (text : List Tok) :
    PyResult (Option (DateTime × List Tok)) :=
  match reSearch p2TryAt text with
  | some w =>
    match smart_next_weekday_parse w now with
    | some dtv => smartFinish dtv (reSubAll p2TryAt text)
    | none => trySmartPatterns3 now text
  | none => trySmartPatterns3 now text

/-- The smart-pattern loop of `extract_date_and_text`, in source order:
the first pattern whose regex matches and whose resolver returns non-null
wins; a matching pattern whose resolver returns null falls through to the
next pattern; `ok none` means no smart pattern produced a date. -/
def trySmartPatterns (now : DateTime) (text : List Tok) :
    PyResult (Option (DateTime × List Tok)) :=
  match reSearch p1TryAt text with
  | some (w, n) =>
    match smart_weekday_day_parse w n now with
    | some dtv => smartFinish dtv (reSubAll p1TryAt text)
    | none => trySmartPatterns2 now text
  | none => trySmartPatterns2 now text

/-- The relative-pattern loop of `extract_date_and_text`
(`en N minutos / horas / días`), in source order; the first match returns
directly with the cleaned remainder (no time-merge pass). -/
def tryRelativePatterns (now : DateTime) (text : List Tok) :
    Option (DateTime × List Tok) :=
  match reSearch relMinTryAt text with
  | some n => some (now.addSeconds (n * 60), reSubAll relMinTryAt text)
  | none =>
    match reSearch relHourTryAt text with
    | some n => some (now.addSeconds (n * 3600), reSubAll relHourTryAt text)
    | none =>
      match reSearch relDayTryAt text with
      | some n => some (now.addDays n, reSubAll relDayTryAt text)
      | none => none

/-- Remove every word token equal (case-insensitively) to `w`
(`re.sub(rf'\b{word}\b', '', text)` for a single word). -/
def removeWordAll (w : String) (ts : List Tok) : List Tok :=
  ts.filter (fun t =>
    match t with
    | Tok.word s => ¬ (pyStrLower s) = w
    | _ => true)

/-- Remove every adjacent occurrence of the two-word phrase `w1 w2`,
scanning left to right (`re.sub` for a word pair). -/
def removePhraseAll (w1 w2 : String) : List Tok → List Tok
  | Tok.word a :: Tok.word b :: rest =>
    if (pyStrLower a) = w1 ∧ (pyStrLower b) = w2 then removePhraseAll w1 w2 rest
    else Tok.word a :: removePhraseAll w1 w2 (Tok.word b :: rest)
  | t :: rest => t :: removePhraseAll w1 w2 rest
  | [] => []

/-- Strip a leading `/recordar` command token
(`re.sub(r'^\/(?:recordar)\s*', '', text)`). -/
def stripCommand (ts : List Tok) : List Tok :=
  match ts with
  | Tok.word s :: rest => if (pyStrLower s) = "/recordar" then rest else ts
  | _ => ts

/-- The request-word removal pass of `extract_date_and_text`, applying the
`request_words` list in source order: `recordame, recordar, avisame,
aviso, haceme acordar, acordar, que, de que, de` (by the time `de que` is
processed every bare `que` is already gone, as in the source). -/
def removeRequestWords (ts : List Tok) : List Tok :=
  removeWordAll "de"
    (removePhraseAll "de" "que"
      (removeWordAll "que"
        (removeWordAll "acordar"
          (removePhraseAll "haceme" "acordar"
            (removeWordAll "aviso"
              (removeWordAll "avisame"
                (removeWordAll "recordar"
                  (removeWordAll "recordame" ts))))))))

/-- The text cleanup prefix of `extract_date_and_text` (command strip,
request-word removal, whitespace collapse). -/
def cleanedText (ts : List Tok) : List Tok :=
  removeRequestWords (stripCommand ts)

/-- src/handlers.py `extract_date_and_text(text)`: clean the text, then in
order try the smart patterns, the relative patterns, and the broad-pattern
/ dateparser fallback.  `dateparse` abstracts the external
`dateparser.parse(.., settings=DATEPARSER_SETTINGS)` collaborator; `now`
determinizes the two `datetime.now(..)` reads; `ok none` is the
`(None, None)` return. -/
def extract_date_and_text (dateparse : ParseQuery → Option DateTime)
    (now : DateTime) (input : List Tok) : PyResult (Option (DateTime × List Tok)) :=
  match trySmartPatterns now (cleanedText input) with
  | .exn => .exn
  | .ok (some r) => .ok (some r)
  | .ok none =>
    match tryRelativePatterns now (cleanedText input) with
    | some r => .ok (some r)
    | none => .ok (fallbackExtract dateparse now (cleanedText input))

/-- src/handlers.py `capitalize_first_letter`: capitalize the first letter
of the first word, preserving the rest. -/
def capitalize_first_letter (ts : List Tok) : List Tok :=
  match ts with
  | Tok.word s :: rest => Tok.word (pyCapitalize s) :: rest
  | _ => ts

/-- A message sent back to the user by `process_reminder`. -/
inductive Msg where
  | errNoDate
  | errNoText
  | errPast
  | confirm (reminder_id : Nat)
  deriving DecidableEq, Repr

/-- In-memory state touched by `process_reminder`: the store, the id the
store will assign next, and the scheduler's timer registry. -/
structure BotState where
  db : Db
  next_id : Nat
  jobs : List Job
  deriving Repr

/-- src/db.py `add_reminder(chat_id, text, datetime_obj, category)`: insert
an `active` row and return its id. -/
def add_reminder (db : Db) (next_id : Nat) (chat_id : Int) (text : List Tok)
    (datetime_obj : DateTime) (category : String) : Db × Nat :=
  ({ db with reminders :=
      db.reminders ++ [⟨next_id, chat_id, text, datetime_obj, Status.active, category⟩] },
   next_id)

/-- src/handlers.py `process_reminder(update, context, text)`: extract the
date and payload, reject a missing date or empty payload, reject a
non-future date, and otherwise persist the reminder and register its
one-shot timer.  `explicitCat` abstracts `extract_explicit_category` and
`catFromText` abstracts `extract_category_from_text` (categorization is an
external collaborator per the spec). -/
def process_reminder (dateparse : ParseQuery → Option DateTime)
    (explicitCat : List Tok → List Tok × Option String)
    (catFromText : List Tok → String)
    (now : DateTime) (st : BotState) (chat_id : Int) (text : List Tok) :
    PyResult (BotState × List Msg) :=
  match extract_date_and_text dateparse now text with
  | .exn => .exn
  | .ok none => .ok (st, [Msg.errNoDate])
  | .ok (some (datetime_obj, reminder_text0)) =>
    if reminder_text0 = [] then .ok (st, [Msg.errNoText])
    else
      let ec := explicitCat reminder_text0
      let reminder_text := capitalize_first_letter ec.1
      if datetime_obj.toAbsUs ≤ now.toAbsUs then .ok (st, [Msg.errPast])
      else
        let category :=
          match ec.2 with
          | some c => c
          | none => catFromText reminder_text
        let ar := add_reminder st.db st.next_id chat_id reminder_text datetime_obj category
        let jobs1 := schedule_reminder st.jobs chat_id ar.2 reminder_text datetime_obj
        .ok (⟨ar.1, st.next_id + 1, jobs1⟩, [Msg.confirm ar.2])

/-
  `normalize_text_for_search` (identical in src/handlers.py lines 45-55 and
  src/db.py lines 479-489): `unicodedata.normalize('NFD', text)`, drop the
  characters of category `Mn`, then `.lower()`.

  The character repertoire is modelled by the finite type `UChar`: ASCII
  letters, digits and space, the precomposed Spanish accented letters
  (á é í ó ú ü ñ and their uppercase forms), and the combining marks
  U+0301 (acute), U+0308 (diaeresis) and U+0303 (tilde) — the alphabet the
  Spanish-language search strings of this program draw from.  `nfd`,
  `isMn` and `pyLower` transcribe the Unicode data for exactly these
  characters.
-/

/-- A character of the modelled repertoire: `lo i`/`up i` are the ASCII
letters (`i = 0` is a/A), `dig` the digits, then the precomposed accented
letters and the combining marks. -/
inductive UChar where
  | lo (i : Fin 26)
  | up (i : Fin 26)
  | dig (i : Fin 10)
  | space
  | aAcute | eAcute | iAcute | oAcute | uAcute | uDia | nTilde
  | cAAcute | cEAcute | cIAcute | cOAcute | cUAcute | cUDia | cNTilde
  | mAcute | mDia | mTilde
  deriving DecidableEq, Fintype

/-- Canonical decomposition (NFD) of a repertoire character. -/
def nfd : UChar → List UChar
  | .aAcute => [.lo 0, .mAcute]
  | .eAcute => [.lo 4, .mAcute]
  | .iAcute => [.lo 8, .mAcute]
  | .oAcute => [.lo 14, .mAcute]
  | .uAcute => [.lo 20, .mAcute]
  | .uDia => [.lo 20, .mDia]
  | .nTilde => [.lo 13, .mTilde]
  | .cAAcute => [.up 0, .mAcute]
  | .cEAcute => [.up 4, .mAcute]
  | .cIAcute => [.up 8, .mAcute]
  | .cOAcute => [.up 14, .mAcute]
  | .cUAcute => [.up 20, .mAcute]
  | .cUDia => [.up 20, .mDia]
  | .cNTilde => [.up 13, .mTilde]
  | c => [c]

/-- `unicodedata.category(c) == 'Mn'` on the repertoire: exactly the
combining marks. -/
def isMn : UChar → Bool
  | .mAcute => true
  | .mDia => true
  | .mTilde => true
  | _ => false

/-- Python `str.lower()` on the repertoire. -/
def pyLower : UChar → UChar
  | .up i => .lo i
  | .cAAcute => .aAcute
  | .cEAcute => .eAcute
  | .cIAcute => .iAcute
  | .cOAcute => .oAcute
  | .cUAcute => .uAcute
  | .cUDia => .uDia
  | .cNTilde => .nTilde
  | c => c

/-- `normalize_text_for_search(text)` of src/handlers.py and src/db.py:
NFD-decompose, drop the `Mn` (combining-mark) characters, lowercase.  (The
`if not text: return ""` guard of the source is the identity on the empty
string.) -/
def normalize_text_for_search (text : List UChar) : List UChar :=
  if text = [] then []
  else ((text.flatMap nfd).filter (fun c => !isMn c)).map pyLower

/-
  Calendar lemmas.
-/

theorem daysInMonth_pos (y m : Nat) : 1 ≤ daysInMonth y m := by
  unfold daysInMonth
  split
  · split <;> omega
  · split <;> omega

theorem daysInMonth_le_31 (y m : Nat) : daysInMonth y m ≤ 31 := by
  unfold daysInMonth
  split
  · split <;> omega
  · split <;> omega

theorem daysInMonth_twelve (y : Nat) : daysInMonth y 12 = 31 := by
  simp [daysInMonth]

set_option maxHeartbeats 1000000 in
theorem daysBeforeMonth_succ (y m : Nat) (h1 : 1 ≤ m) (h2 : m ≤ 11) :
    daysBeforeMonth y (m + 1) = daysBeforeMonth y m + daysInMonth y m := by
  interval_cases m <;>
    simp only [daysBeforeMonth, daysInMonth] <;>
    norm_num <;>
    cases isLeap y <;> simp

theorem isLeap_iff (y : Nat) :
    isLeap y = true ↔ ((y % 4 = 0 ∧ ¬ y % 100 = 0) ∨ y % 400 = 0) := by
  simp [isLeap]

set_option maxHeartbeats 2000000 in
theorem daysBeforeYear_succ (y : Nat) (h : 1 ≤ y) :
    daysBeforeYear (y + 1) =
      daysBeforeYear y + 365 + (if isLeap y then 1 else 0) := by
  unfold daysBeforeYear
  simp only [Nat.add_sub_cancel]
  cases hL : isLeap y
  · have hc : ¬ ((y % 4 = 0 ∧ ¬ y % 100 = 0) ∨ y % 400 = 0) := by
      intro hx
      have hx2 := (isLeap_iff y).mpr hx
      rw [hL] at hx2
      exact Bool.false_ne_true hx2
    simp only [Bool.false_eq_true, if_false]
    omega
  · have hc := (isLeap_iff y).mp hL
    simp only [eq_self_iff_true, if_true]
    omega

theorem rataDie_nextDay (t : DateTime) (h : t.dateOkB = true) :
    t.nextDay.rataDie = t.rataDie + 1 := by
  simp only [DateTime.dateOkB, Bool.and_eq_true, decide_eq_true_eq] at h
  obtain ⟨⟨⟨⟨hy, hm1⟩, hm2⟩, hd1⟩, hd2⟩ := h
  unfold DateTime.nextDay
  split
  · simp only [DateTime.rataDie]
    omega
  · split
    · rename_i hlt hm12
      have hde : t.day = daysInMonth t.year t.month := by omega
      have hsucc := daysBeforeMonth_succ t.year t.month hm1 (by omega)
      have hpos := daysInMonth_pos t.year t.month
      simp only [DateTime.rataDie]
      omega
    · rename_i hlt hm12
      have hm : t.month = 12 := by omega
      have h31 : daysInMonth t.year 12 = 31 := daysInMonth_twelve t.year
      have hde : t.day = 31 := by rw [hm] at hd2 hlt; omega
      have hy1 := daysBeforeYear_succ t.year hy
      simp only [DateTime.rataDie, hm, hde]
      simp only [daysBeforeMonth]
      rw [hy1]
      cases isLeap t.year <;> simp

theorem dateOkB_nextDay (t : DateTime) (h : t.dateOkB = true) :
    t.nextDay.dateOkB = true := by
  have hp1 := daysInMonth_pos t.year (t.month + 1)
  have hp2 := daysInMonth_pos (t.year + 1) 1
  simp only [DateTime.dateOkB, Bool.and_eq_true, decide_eq_true_eq] at h
  unfold DateTime.nextDay
  split
  · simp only [DateTime.dateOkB, Bool.and_eq_true, decide_eq_true_eq]
    omega
  · split
    · simp only [DateTime.dateOkB, Bool.and_eq_true, decide_eq_true_eq]
      omega
    · simp only [DateTime.dateOkB, Bool.and_eq_true, decide_eq_true_eq]
      omega

theorem dateOkB_addDays (t : DateTime) (n : Nat) (h : t.dateOkB = true) :
    (t.addDays n).dateOkB = true := by
  induction n with
  | zero => exact h
  | succ k ih => exact dateOkB_nextDay _ ih

theorem rataDie_addDays (t : DateTime) (n : Nat) (h : t.dateOkB = true) :
    (t.addDays n).rataDie = t.rataDie + n := by
  induction n with
  | zero => rfl
  | succ k ih =>
    have hk := dateOkB_addDays t k h
    calc (t.addDays (k + 1)).rataDie = (t.addDays k).nextDay.rataDie := rfl
      _ = (t.addDays k).rataDie + 1 := rataDie_nextDay _ hk
      _ = t.rataDie + (k + 1) := by omega

theorem rataDie_withTime (t : DateTime) (h mi s us : Nat) :
    (t.withTime h mi s us).rataDie = t.rataDie := rfl

theorem dateOk_of_validB (t : DateTime) (h : t.validB = true) : t.dateOkB = true := by
  simp only [DateTime.validB, Bool.and_eq_true, decide_eq_true_eq] at h
  simp only [DateTime.dateOkB, Bool.and_eq_true, decide_eq_true_eq]
  omega

theorem spanishWeekday_le_6 (s : String) (n : Nat) (h : spanishWeekday s = some n) :
    n ≤ 6 := by
  unfold spanishWeekday at h
  split_ifs at h <;> simp_all <;> omega

/-
  Claim theorems.
-/

/-- C1.  The claim states that every weekday+day fragment accepted in
normal mode resolves to an instant whose weekday equals the requested
weekday, including when the resolver rolls forward to a later month.  The
code violates this: with `now` = Monday 2025-01-06 10:00 (so `now` itself
is a "lunes"), the fragment "lunes 6" matches the current-month candidate
2025-01-06 09:00, which lies in the past, and the resolver rolls to
2025-02-06 09:00 — a Thursday (weekday 3, not 0) — because the roll-forward
branch of `_smart_weekday_day_parse` never re-checks the weekday, although
the function's purpose, the spec, and the `_smart_weekday_day_parse_with_past`
sibling all require the weekday to match.  The day-of-month and the 09:00
default are preserved. -/
theorem smart_weekday_day_rolls_to_wrong_weekday :
    spanishWeekday "lunes" = some 0 ∧
    DateTime.pyWeekday ⟨2025, 1, 6, 10, 0, 0, 0⟩ = 0 ∧
    smart_weekday_day_parse "lunes" 6 ⟨2025, 1, 6, 10, 0, 0, 0⟩ =
      some ⟨2025, 2, 6, 9, 0, 0, 0⟩ ∧
    DateTime.pyWeekday ⟨2025, 2, 6, 9, 0, 0, 0⟩ = 3 := by
  decide

/-- C3.  The claim states the hour resolver returns a valid instant without
raising for every hour 1-12.  For `hour = 12` the code first builds
`pm_time = now.replace(hour=12+12)`, which raises `ValueError` (hour 24 is
out of range) before the dedicated `hour == 12` branch below it can run,
so `_smart_hour_parse` raises instead of returning — at any `now` and any
minute.  Hours 1-11 do return a valid instant (last conjunct: 9 resolves
to 21:00 the same evening). -/
theorem smart_hour_parse_raises_at_hour_12 :
    smart_hour_parse 12 0 ⟨2025, 1, 10, 20, 0, 0, 0⟩ = PyResult.exn ∧
    smart_hour_parse 12 30 ⟨2025, 6, 15, 8, 0, 0, 0⟩ = PyResult.exn ∧
    smart_hour_parse 12 59 ⟨2024, 2, 29, 0, 0, 0, 0⟩ = PyResult.exn ∧
    smart_hour_parse 9 0 ⟨2025, 1, 10, 20, 0, 0, 0⟩ =
      PyResult.ok (some ⟨2025, 1, 10, 21, 0, 0, 0⟩) := by
  decide

/-- C7 counterexample.  The claim bounds the returned instant by "at most
7 days ahead of now".  With `now` = Monday 2025-01-06 08:00, "lunes que
viene" resolves to Monday 2025-01-13 09:00, which is 7 days and 1 hour
after `now` — more than 7 days (604800000000 microseconds) — because the
day arithmetic adds exactly 7 days and the time is then set to 09:00,
later in the day than `now`'s 08:00. -/
theorem next_weekday_can_exceed_7_days :
    smart_next_weekday_parse "lunes" ⟨2025, 1, 6, 8, 0, 0, 0⟩ =
      some ⟨2025, 1, 13, 9, 0, 0, 0⟩ ∧
    DateTime.toAbsUs ⟨2025, 1, 13, 9, 0, 0, 0⟩ -
      DateTime.toAbsUs ⟨2025, 1, 6, 8, 0, 0, 0⟩ = 604800000000 + 3600000000 := by
  decide

/-- C7 amended.  For every valid `now` (year below the `MAXYEAR` overflow
edge, which the model does not represent) and every recognized weekday
word, `_smart_next_weekday_parse` returns an instant whose weekday equals
the requested weekday, strictly after `now`, whose calendar date is
between 1 and 7 days after `now`'s date; the instant itself may exceed
`now` by up to 7 days plus the distance from `now`'s time-of-day to 09:00. -/
theorem next_weekday_weekday_and_day_bound (weekday : String) (now : DateTime) (tw : Nat)
    (hwd : spanishWeekday (pyStrLower weekday) = some tw)
    (hv : now.validB = true) (_hy : now.year ≤ 9998) :
    ∃ t, smart_next_weekday_parse weekday now = some t ∧
      t.pyWeekday = tw ∧
      now.toAbsUs < t.toAbsUs ∧
      1 ≤ t.rataDie - now.rataDie ∧ t.rataDie - now.rataDie ≤ 7 := by
  have hok : now.dateOkB = true := dateOk_of_validB now hv
  have htw6 : tw ≤ 6 := spanishWeekday_le_6 _ _ hwd
  have hcw : now.pyWeekday = now.rataDie % 7 := rfl
  have hcw6 : now.rataDie % 7 ≤ 6 := by omega
  unfold smart_next_weekday_parse
  rw [hwd]
  set d0 : Int := (tw : Int) - (now.pyWeekday : Int) with hd0
  set k : Nat := (if d0 ≤ 0 then d0 + 7 else d0).toNat with hk
  refine ⟨(now.addDays k).withTime 9 0 0 0, rfl, ?_, ?_, ?_, ?_⟩ <;>
    [skip; skip; skip; skip]
  case _ =>
    have hrd : ((now.addDays k).withTime 9 0 0 0).rataDie = now.rataDie + k := by
      rw [rataDie_withTime]
      exact rataDie_addDays now k hok
    show ((now.addDays k).withTime 9 0 0 0).rataDie % 7 = tw
    rw [hrd]
    have hkval : (d0 ≤ 0 ∧ k = (d0 + 7).toNat) ∨ (¬ d0 ≤ 0 ∧ k = d0.toNat) := by
      by_cases hle : d0 ≤ 0
      · left; exact ⟨hle, by rw [hk, if_pos hle]⟩
      · right; exact ⟨hle, by rw [hk, if_neg hle]⟩
    rw [hd0, hcw] at hkval
    omega
  case _ =>
    have hrd : ((now.addDays k).withTime 9 0 0 0).rataDie = now.rataDie + k := by
      rw [rataDie_withTime]
      exact rataDie_addDays now k hok
    have hk1 : 1 ≤ k := by
      have hkval : (d0 ≤ 0 ∧ k = (d0 + 7).toNat) ∨ (¬ d0 ≤ 0 ∧ k = d0.toNat) := by
        by_cases hle : d0 ≤ 0
        · left; exact ⟨hle, by rw [hk, if_pos hle]⟩
        · right; exact ⟨hle, by rw [hk, if_neg hle]⟩
      rw [hd0, hcw] at hkval
      omega
    simp only [DateTime.validB, Bool.and_eq_true, decide_eq_true_eq] at hv
    have h9 : ((now.addDays k).withTime 9 0 0 0).hour = 9 := rfl
    have h0m : ((now.addDays k).withTime 9 0 0 0).minute = 0 := rfl
    have h0s : ((now.addDays k).withTime 9 0 0 0).second = 0 := rfl
    have h0u : ((now.addDays k).withTime 9 0 0 0).micro = 0 := rfl
    simp only [DateTime.toAbsUs, hrd, h9, h0m, h0s, h0u]
    omega
  case _ =>
    have hrd : ((now.addDays k).withTime 9 0 0 0).rataDie = now.rataDie + k := by
      rw [rataDie_withTime]
      exact rataDie_addDays now k hok
    have hk1 : 1 ≤ k := by
      have hkval : (d0 ≤ 0 ∧ k = (d0 + 7).toNat) ∨ (¬ d0 ≤ 0 ∧ k = d0.toNat) := by
        by_cases hle : d0 ≤ 0
        · left; exact ⟨hle, by rw [hk, if_pos hle]⟩
        · right; exact ⟨hle, by rw [hk, if_neg hle]⟩
      rw [hd0, hcw] at hkval
      omega
    omega
  case _ =>
    have hrd : ((now.addDays k).withTime 9 0 0 0).rataDie = now.rataDie + k := by
      rw [rataDie_withTime]
      exact rataDie_addDays now k hok
    have hk7 : k ≤ 7 := by
      have hkval : (d0 ≤ 0 ∧ k = (d0 + 7).toNat) ∨ (¬ d0 ≤ 0 ∧ k = d0.toNat) := by
        by_cases hle : d0 ≤ 0
        · left; exact ⟨hle, by rw [hk, if_pos hle]⟩
        · right; exact ⟨hle, by rw [hk, if_neg hle]⟩
      rw [hd0, hcw] at hkval
      omega
    omega

/-- C7 amended, witnessed at "martes" with `now` = Monday 2025-01-06
08:00: the theorem's hypotheses hold and its conclusion is realized at
Tuesday 2025-01-07 09:00. -/
theorem next_weekday_weekday_and_day_bound_witness :
    smart_next_weekday_parse "martes" ⟨2025, 1, 6, 8, 0, 0, 0⟩ =
      some ⟨2025, 1, 7, 9, 0, 0, 0⟩ ∧
    DateTime.pyWeekday ⟨2025, 1, 7, 9, 0, 0, 0⟩ = 1 ∧
    DateTime.toAbsUs ⟨2025, 1, 6, 8, 0, 0, 0⟩ < DateTime.toAbsUs ⟨2025, 1, 7, 9, 0, 0, 0⟩ ∧
    1 ≤ DateTime.rataDie ⟨2025, 1, 7, 9, 0, 0, 0⟩ - DateTime.rataDie ⟨2025, 1, 6, 8, 0, 0, 0⟩ ∧
    DateTime.rataDie ⟨2025, 1, 7, 9, 0, 0, 0⟩ - DateTime.rataDie ⟨2025, 1, 6, 8, 0, 0, 0⟩ ≤ 7 := by
  obtain ⟨t, h1, h2, h3, h4, h5⟩ :=
    next_weekday_weekday_and_day_bound "martes" ⟨2025, 1, 6, 8, 0, 0, 0⟩ 1
      (by decide) (by decide) (by decide)
  have h0 : smart_next_weekday_parse "martes" ⟨2025, 1, 6, 8, 0, 0, 0⟩ =
      some ⟨2025, 1, 7, 9, 0, 0, 0⟩ := by decide
  rw [h0] at h1
  injection h1 with ht
  rw [← ht] at h2 h3 h4 h5
  exact ⟨h0, h2, h3, h4, h5⟩

/-- C8 counterexample.  The claim states that a day/month valid in the
current year whose current-year instant is past always resolves to the
next year.  For "29/2" with `now` = 2024-03-01 12:00 (2024 is a leap
year, so 2024-02-29 is valid and past), the next-year replace raises
`ValueError` (2025 has no Feb 29), the `except` swallows it, and the
resolver returns null instead of a next-year date. -/
theorem smart_date_parse_feb29_returns_none :
    smart_date_parse 29 2 ⟨2024, 3, 1, 12, 0, 0, 0⟩ = none := by
  decide

/-- C8 amended.  For every day/month pair that forms a valid date in the
current year (at 09:00) whose current-year instant is not after `now`,
and whose day/month is also valid in the next year, `_smart_date_parse`
returns the next-year date with the same day and month at 09:00; when the
next-year combination is invalid (Feb 29 before a non-leap year, or the
`MAXYEAR` bound) it returns null instead. -/
theorem smart_date_parse_rolls_to_next_year (day month : Nat) (now : DateTime)
    (hcur : (DateTime.mk now.year month day 9 0 0 0).validB = true)
    (hpast : (DateTime.mk now.year month day 9 0 0 0).toAbsUs ≤ now.toAbsUs)
    (hnext : (DateTime.mk (now.year + 1) month day 9 0 0 0).validB = true) :
    smart_date_parse day month now = some ⟨now.year + 1, month, day, 9, 0, 0, 0⟩ := by
  have hb : ¬ (day < 1 ∨ day > 31 ∨ month < 1 ∨ month > 12) := by
    have h31 := daysInMonth_le_31 now.year month
    simp only [DateTime.validB, Bool.and_eq_true, decide_eq_true_eq] at hcur
    omega
  unfold smart_date_parse DateTime.replace?
  rw [if_neg hb]
  simp only [hcur, if_true, hpast, if_pos, hnext]

/-- C8 amended, witnessed at "20/3" with `now` = 2025-06-01 12:00:
2025-03-20 09:00 is valid and past, and the resolver returns 2026-03-20
09:00. -/
theorem smart_date_parse_rolls_to_next_year_witness :
    smart_date_parse 20 3 ⟨2025, 6, 1, 12, 0, 0, 0⟩ = some ⟨2026, 3, 20, 9, 0, 0, 0⟩ :=
  smart_date_parse_rolls_to_next_year 20 3 ⟨2025, 6, 1, 12, 0, 0, 0⟩
    (by decide) (by decide) (by decide)

/-
  Scheduler rehydration lemmas (C2, C4).
-/

theorem processImportants_db (now : DateTime) :
    ∀ (l : List ImpReminder) (db : Db) (jobs : List Job),
      (processImportants now db jobs l).1 = db := by
  intro l
  induction l with
  | nil => intro db jobs; rfl
  | cons r rs ih =>
    intro db jobs
    unfold processImportants
    split
    · split
      · exact ih _ _
      · split
        · exact ih _ _
        · exact ih _ _
    · exact ih _ _

theorem mark_reminder_sent_important (db : Db) (i : Nat) :
    (mark_reminder_sent db i).important = db.important := rfl

theorem processRegulars_important (now : DateTime) :
    ∀ (l : List RegReminder) (db : Db) (jobs : List Job),
      (processRegulars now db jobs l).1.important = db.important := by
  intro l
  induction l with
  | nil => intro db jobs; rfl
  | cons r rs ih =>
    intro db jobs
    unfold processRegulars
    split
    · exact ih _ _
    · rw [ih (mark_reminder_sent db r.id) jobs]
      rfl

theorem mem_jobs_processRegulars (now : DateTime) :
    ∀ (l : List RegReminder) (db : Db) (jobs : List Job) (j : Job),
      j ∈ (processRegulars now db jobs l).2 →
      j ∈ jobs ∨ ∃ r, r ∈ l ∧ now.toAbsUs < r.datetime.toAbsUs ∧
        j = ⟨JobId.regular r.id, r.chat_id, r.text, Trigger.date r.datetime⟩ := by
  intro l
  induction l with
  | nil => intro db jobs j hj; exact Or.inl hj
  | cons r rs ih =>
    intro db jobs j hj
    unfold processRegulars at hj
    by_cases hc : now.toAbsUs < r.datetime.toAbsUs
    · rw [if_pos hc] at hj
      rcases ih _ _ _ hj with h0 | ⟨r2, hr2, hf, hje⟩
      · simp only [schedule_reminder, List.mem_append, List.mem_singleton] at h0
        rcases h0 with h0 | h0
        · exact Or.inl h0
        · exact Or.inr ⟨r, List.mem_cons_self r rs, hc, h0⟩
      · exact Or.inr ⟨r2, List.mem_cons_of_mem _ hr2, hf, hje⟩
    · rw [if_neg hc] at hj
      rcases ih _ _ _ hj with h0 | ⟨r2, hr2, hf, hje⟩
      · exact Or.inl h0
      · exact Or.inr ⟨r2, List.mem_cons_of_mem _ hr2, hf, hje⟩

theorem mem_schedule_important_reminder (db : Db) (jobs : List Job) (i : Nat)
    (dt : DateTime) (iv : Nat) (j : Job)
    (h : j ∈ schedule_important_reminder db jobs i dt iv) :
    j ∈ jobs ∨ j.id = JobId.important i := by
  unfold schedule_important_reminder at h
  cases hfind : (get_active_important_reminders db).find? (fun r => r.id = i) with
  | none => rw [hfind] at h; exact Or.inl h
  | some r0 =>
    rw [hfind] at h
    simp only [List.mem_append, List.mem_singleton] at h
    rcases h with h | h
    · exact Or.inl h
    · right; rw [h]

theorem mem_jobs_processImportants (now : DateTime) :
    ∀ (l : List ImpReminder) (db : Db) (jobs : List Job) (j : Job),
      j ∈ (processImportants now db jobs l).2 →
      j ∈ jobs ∨ ∃ r, r ∈ l ∧ j.id = JobId.important r.id ∧
        ¬ (r.datetime.toAbsUs ≤ now.toAbsUs ∧ ∃ ls, r.last_sent = some ls ∧
            (now.toAbsUs : Int) - (ls.toAbsUs : Int) <
              (r.repeat_interval : Int) * 60 * 1000000) := by
  intro l
  induction l with
  | nil => intro db jobs j hj; exact Or.inl hj
  | cons r rs ih =>
    intro db jobs j hj
    unfold processImportants at hj
    split at hj
    · rename_i hc
      split at hj
      · rename_i hls
        rcases ih _ _ _ hj with h0 | ⟨r2, hr2, hid, hcond⟩
        · rcases mem_schedule_important_reminder _ _ _ _ _ _ h0 with h1 | h1
          · exact Or.inl h1
          · refine Or.inr ⟨r, List.mem_cons_self r rs, h1, ?_⟩
            rintro ⟨-, ls, hsome, -⟩
            rw [hls] at hsome
            cases hsome
        · exact Or.inr ⟨r2, List.mem_cons_of_mem _ hr2, hid, hcond⟩
      · rename_i ls hls
        split at hj
        · rename_i hint
          rcases ih _ _ _ hj with h0 | ⟨r2, hr2, hid, hcond⟩
          · rcases mem_schedule_important_reminder _ _ _ _ _ _ h0 with h1 | h1
            · exact Or.inl h1
            · refine Or.inr ⟨r, List.mem_cons_self r rs, h1, ?_⟩
              rintro ⟨-, ls2, hsome, hlt⟩
              rw [hls] at hsome
              cases hsome
              omega
          · exact Or.inr ⟨r2, List.mem_cons_of_mem _ hr2, hid, hcond⟩
        · rename_i hint
          rcases ih _ _ _ hj with h0 | ⟨r2, hr2, hid, hcond⟩
          · exact Or.inl h0
          · exact Or.inr ⟨r2, List.mem_cons_of_mem _ hr2, hid, hcond⟩
    · rename_i hc
      rcases ih _ _ _ hj with h0 | ⟨r2, hr2, hid, hcond⟩
      · rcases mem_schedule_important_reminder _ _ _ _ _ _ h0 with h1 | h1
        · exact Or.inl h1
        · refine Or.inr ⟨r, List.mem_cons_self r rs, h1, ?_⟩
          rintro ⟨hle, -⟩
          exact hc hle
      · exact Or.inr ⟨r2, List.mem_cons_of_mem _ hr2, hid, hcond⟩

theorem mark_reminder_sent_sets (db : Db) (i : Nat) :
    ∀ x ∈ (mark_reminder_sent db i).reminders, x.id = i → x.status = Status.sent := by
  intro x hx hid
  simp only [mark_reminder_sent, List.mem_map] at hx
  obtain ⟨y, hy, hxy⟩ := hx
  by_cases h : y.id = i
  · rw [if_pos h] at hxy
    rw [← hxy]
  · rw [if_neg h] at hxy
    subst hxy
    exact absurd hid h

theorem mark_reminder_sent_preserves (db : Db) (i j : Nat)
    (h : ∀ x ∈ db.reminders, x.id = i → x.status = Status.sent) :
    ∀ x ∈ (mark_reminder_sent db j).reminders, x.id = i → x.status = Status.sent := by
  intro x hx hid
  simp only [mark_reminder_sent, List.mem_map] at hx
  obtain ⟨y, hy, hxy⟩ := hx
  by_cases hj : y.id = j
  · rw [if_pos hj] at hxy
    rw [← hxy]
  · rw [if_neg hj] at hxy
    subst hxy
    exact h y hy hid

theorem processRegulars_sent_preserved (now : DateTime) :
    ∀ (l : List RegReminder) (db : Db) (jobs : List Job) (i : Nat),
      (∀ x ∈ db.reminders, x.id = i → x.status = Status.sent) →
      ∀ x ∈ (processRegulars now db jobs l).1.reminders, x.id = i → x.status = Status.sent := by
  intro l
  induction l with
  | nil => intro db jobs i h; exact h
  | cons r rs ih =>
    intro db jobs i h
    unfold processRegulars
    split
    · exact ih _ _ _ h
    · exact ih _ _ _ (mark_reminder_sent_preserves db i r.id h)

theorem processRegulars_sent_of_mem (now : DateTime) :
    ∀ (l : List RegReminder) (db : Db) (jobs : List Job) (r : RegReminder),
      r ∈ l → r.datetime.toAbsUs ≤ now.toAbsUs →
      ∀ x ∈ (processRegulars now db jobs l).1.reminders, x.id = r.id →
        x.status = Status.sent := by
  intro l
  induction l with
  | nil => intro db jobs r hmem; cases hmem
  | cons a rs ih =>
    intro db jobs r hmem hpast
    rcases List.mem_cons.mp hmem with heq | htail
    · subst heq
      unfold processRegulars
      split
      · rename_i hlt
        exact absurd hlt (by omega)
      · exact processRegulars_sent_preserved now rs _ _ _ (mark_reminder_sent_sets db r.id)
    · unfold processRegulars
      split
      · exact ih _ _ r htail hpast
      · exact ih _ _ r htail hpast

theorem rehydrate_past_oneshot_sent_aux (db : Db) (now : DateTime) (r : RegReminder)
    (hmem : r ∈ db.reminders) (hact : r.status = Status.active)
    (hpast : r.datetime.toAbsUs ≤ now.toAbsUs)
    (hnodup : (db.reminders.map RegReminder.id).Nodup) :
    (∀ x ∈ (load_pending_reminders db now).1.reminders,
      x.id = r.id → x.status = Status.sent) ∧
    (∀ j ∈ (load_pending_reminders db now).2, j.id ≠ JobId.regular r.id) := by
  constructor
  · intro x hx hid
    have hdb : (load_pending_reminders db now).1 =
        (processRegulars now db [] (get_all_active_reminders db)).1 := by
      unfold load_pending_reminders
      exact processImportants_db now _ _ _
    rw [hdb] at hx
    have hfil : r ∈ get_all_active_reminders db := by
      simp only [get_all_active_reminders, List.mem_filter, decide_eq_true_eq]
      exact ⟨hmem, hact⟩
    exact processRegulars_sent_of_mem now _ db [] r hfil hpast x hx hid
  · intro j hj hjid
    unfold load_pending_reminders at hj
    rcases mem_jobs_processImportants now _ _ _ j hj with hj1 | ⟨r2, _, hid2, _⟩
    · rcases mem_jobs_processRegulars now _ _ _ j hj1 with h0 | ⟨r2, hmem2, hfut2, hje⟩
      · exact List.not_mem_nil j h0
      · have hid : r2.id = r.id := by
          rw [hje] at hjid
          simpa using hjid
        have hr2mem : r2 ∈ db.reminders := by
          have h2 : r2 ∈ get_all_active_reminders db := hmem2
          simp only [get_all_active_reminders, List.mem_filter, decide_eq_true_eq] at h2
          exact h2.1
        have hr2r : r2 = r :=
          List.inj_on_of_nodup_map hnodup hr2mem hmem hid
        rw [hr2r] at hfut2
        omega
    · rw [hid2] at hjid
      cases hjid

/-- C4.  Rehydration marks every already-due active one-shot reminder as
sent and registers no timer for it: after `load_pending_reminders` from
the empty registry, every row carrying the reminder's id has status
`sent`, and the registry holds no job with its id, so no notification is
ever sent for it (sends happen only from registered jobs, and
`load_pending_reminders` itself sends nothing). -/
theorem rehydrate_past_oneshot_marked_sent (db : Db) (now : DateTime) (r : RegReminder)
    (hmem : r ∈ db.reminders) (hact : r.status = Status.active)
    (hpast : r.datetime.toAbsUs ≤ now.toAbsUs)
    (hnodup : (db.reminders.map RegReminder.id).Nodup) :
    ((load_pending_reminders db now).1.reminders.filter
        (fun x => x.id = r.id)).all (fun x => x.status = Status.sent) = true ∧
    (load_pending_reminders db now).2.filter (fun j => j.id = JobId.regular r.id) = [] := by
  obtain ⟨h1, h2⟩ := rehydrate_past_oneshot_sent_aux db now r hmem hact hpast hnodup
  constructor
  · rw [List.all_eq_true]
    intro x hx
    have hx2 := List.mem_filter.mp hx
    simp only [decide_eq_true_eq] at hx2 ⊢
    exact h1 x hx2.1 hx2.2
  · rw [List.filter_eq_nil_iff]
    intro j hj
    simp only [decide_eq_true_eq]
    exact h2 j hj

/-- C4, witnessed on a store holding one active reminder due one hour
before `now`: after rehydration its row is `sent` and the registry is
empty. -/
theorem rehydrate_past_oneshot_marked_sent_witness :
    ((load_pending_reminders
        ⟨[⟨1, 7, [Tok.word "pan"], ⟨2025, 1, 10, 19, 0, 0, 0⟩, Status.active, "general"⟩], []⟩
        ⟨2025, 1, 10, 20, 0, 0, 0⟩).1.reminders.filter
        (fun x => x.id = 1)).all (fun x => x.status = Status.sent) = true ∧
    (load_pending_reminders
        ⟨[⟨1, 7, [Tok.word "pan"], ⟨2025, 1, 10, 19, 0, 0, 0⟩, Status.active, "general"⟩], []⟩
        ⟨2025, 1, 10, 20, 0, 0, 0⟩).2.filter (fun j => j.id = JobId.regular 1) = [] :=
  rehydrate_past_oneshot_marked_sent
    ⟨[⟨1, 7, [Tok.word "pan"], ⟨2025, 1, 10, 19, 0, 0, 0⟩, Status.active, "general"⟩], []⟩
    ⟨2025, 1, 10, 20, 0, 0, 0⟩
    ⟨1, 7, [Tok.word "pan"], ⟨2025, 1, 10, 19, 0, 0, 0⟩, Status.active, "general"⟩
    (by decide) (by decide) (by decide) (by decide)

/-- C2 counterexample.  The claim states that a past-due recurring
reminder whose interval has not yet elapsed since `last_notified_at` is
re-registered with a recurring timer anchored at the original `due_at`.
On a store holding exactly one such reminder (due 19:00, one hour before
`now` = 20:00, interval 10 minutes, last sent 19:57, three minutes ago),
`load_pending_reminders` returns an empty registry: `should_schedule`
stays false and no timer of any kind is registered, so the anchored
recurring timer the claim promises does not exist. -/
theorem rehydrate_unelapsed_recurring_registers_nothing :
    load_pending_reminders
      ⟨[], [⟨1, 7, [Tok.word "pastilla"], ⟨2025, 1, 10, 19, 0, 0, 0⟩, 10,
            some ⟨2025, 1, 10, 19, 57, 0, 0⟩⟩]⟩
      ⟨2025, 1, 10, 20, 0, 0, 0⟩ =
    (⟨[], [⟨1, 7, [Tok.word "pastilla"], ⟨2025, 1, 10, 19, 0, 0, 0⟩, 10,
           some ⟨2025, 1, 10, 19, 57, 0, 0⟩⟩]⟩, []) := by
  decide

theorem rehydrate_unelapsed_recurring_aux (db : Db) (now : DateTime)
    (r : ImpReminder) (ls : DateTime)
    (hmem : r ∈ db.important)
    (hpast : r.datetime.toAbsUs ≤ now.toAbsUs)
    (hls : r.last_sent = some ls)
    (hint : (now.toAbsUs : Int) - (ls.toAbsUs : Int) <
      (r.repeat_interval : Int) * 60 * 1000000)
    (hnodup : (db.important.map ImpReminder.id).Nodup) :
    ∀ j ∈ (load_pending_reminders db now).2, j.id ≠ JobId.important r.id := by
  intro j hj hjid
  unfold load_pending_reminders at hj
  rcases mem_jobs_processImportants now _ _ _ j hj with hj1 | ⟨r2, hr2, hid2, hcond⟩
  · rcases mem_jobs_processRegulars now _ _ _ j hj1 with h0 | ⟨r3, -, -, hje⟩
    · exact List.not_mem_nil j h0
    · rw [hje] at hjid
      cases hjid
  · have hid : r2.id = r.id := by
      rw [hid2] at hjid
      injection hjid
    have hr2mem : r2 ∈ db.important := by
      have heq : get_active_important_reminders
          (processRegulars now db [] (get_all_active_reminders db)).1 = db.important := by
        unfold get_active_important_reminders
        exact processRegulars_important now (get_all_active_reminders db) db []
      rw [heq] at hr2
      exact hr2
    have hr2r : r2 = r := List.inj_on_of_nodup_map hnodup hr2mem hmem hid
    rw [hr2r] at hcond
    exact hcond ⟨hpast, ls, hls, hint⟩

/-- C2 amended.  For every persisted recurring reminder whose `due_at` is
past and whose `last_notified_at` is non-null and less than
`repeat_interval` minutes before `now`, `load_pending_reminders` does not
fire it immediately — but neither does it re-register the recurring
timer: no job with the reminder's id is registered at all (rehydration
sends nothing by itself, and the reminder resumes only after a later
restart once the interval has elapsed). -/
theorem rehydrate_unelapsed_recurring_not_registered (db : Db) (now : DateTime)
    (r : ImpReminder) (ls : DateTime)
    (hmem : r ∈ db.important)
    (hpast : r.datetime.toAbsUs ≤ now.toAbsUs)
    (hls : r.last_sent = some ls)
    (hint : (now.toAbsUs : Int) - (ls.toAbsUs : Int) <
      (r.repeat_interval : Int) * 60 * 1000000)
    (hnodup : (db.important.map ImpReminder.id).Nodup) :
    (load_pending_reminders db now).2.filter
      (fun j => j.id = JobId.important r.id) = [] := by
  rw [List.filter_eq_nil_iff]
  intro j hj
  simp only [decide_eq_true_eq]
  exact rehydrate_unelapsed_recurring_aux db now r ls hmem hpast hls hint hnodup j hj

/-- C2 amended, witnessed on the counterexample store: no job with the
reminder's id (indeed no job at all) is registered. -/
theorem rehydrate_unelapsed_recurring_not_registered_witness :
    (load_pending_reminders
      ⟨[], [⟨1, 7, [Tok.word "pastilla"], ⟨2025, 1, 10, 19, 0, 0, 0⟩, 10,
            some ⟨2025, 1, 10, 19, 57, 0, 0⟩⟩]⟩
      ⟨2025, 1, 10, 20, 0, 0, 0⟩).2.filter
      (fun j => j.id = JobId.important 1) = [] :=
  rehydrate_unelapsed_recurring_not_registered
    ⟨[], [⟨1, 7, [Tok.word "pastilla"], ⟨2025, 1, 10, 19, 0, 0, 0⟩, 10,
          some ⟨2025, 1, 10, 19, 57, 0, 0⟩⟩]⟩
    ⟨2025, 1, 10, 20, 0, 0, 0⟩
    ⟨1, 7, [Tok.word "pastilla"], ⟨2025, 1, 10, 19, 0, 0, 0⟩, 10,
     some ⟨2025, 1, 10, 19, 57, 0, 0⟩⟩
    ⟨2025, 1, 10, 19, 57, 0, 0⟩
    (by decide) (by decide) (by decide) (by decide) (by decide)

/-- C5.  For both fire callbacks the persisted update happens exactly when
the transport send returns without throwing: on a send failure the caught
exception leaves the store untouched and no notification is delivered,
and the callback still returns normally (`PyResult.ok`, never a crash);
on success the notification is delivered and the store transition
(`mark_reminder_sent` for one-shots, `update_reminder_last_sent` for
recurring reminders) is applied. -/
theorem send_status_update_only_after_success (db : Db) (chat_id : Int)
    (reminder_id : Nat) (text : List Tok) (fire_time : DateTime) :
    send_reminder SendOutcome.failure db chat_id reminder_id text =
      PyResult.ok (db, []) ∧
    send_reminder SendOutcome.success db chat_id reminder_id text =
      PyResult.ok (mark_reminder_sent db reminder_id,
        [⟨chat_id, reminder_id, text, false⟩]) ∧
    send_important_reminder SendOutcome.failure db chat_id reminder_id text fire_time =
      PyResult.ok (db, []) ∧
    send_important_reminder SendOutcome.success db chat_id reminder_id text fire_time =
      PyResult.ok (update_reminder_last_sent db reminder_id fire_time,
        [⟨chat_id, reminder_id, text, true⟩]) :=
  ⟨rfl, rfl, rfl, rfl⟩

/-- C6.  Whenever extraction yields an instant that is not strictly after
`now` (and a non-empty payload, so the earlier empty-payload rejection is
not taken), `process_reminder` replies with the past-date error and
returns the state unchanged: no record is added and no timer is
registered. -/
theorem process_reminder_rejects_past (dateparse : ParseQuery → Option DateTime)
    (explicitCat : List Tok → List Tok × Option String)
    (catFromText : List Tok → String)
    (now : DateTime) (st : BotState) (chat_id : Int) (text : List Tok)
    (datetime_obj : DateTime) (rtext : List Tok)
    (hex : extract_date_and_text dateparse now text =
      PyResult.ok (some (datetime_obj, rtext)))
    (hne : rtext ≠ [])
    (hpast : datetime_obj.toAbsUs ≤ now.toAbsUs) :
    process_reminder dateparse explicitCat catFromText now st chat_id text =
      PyResult.ok (st, [Msg.errPast]) := by
  unfold process_reminder
  rw [hex]
  simp [hne, hpast]

/-- C6, witnessed on "en 0 minutos apagar" (which resolves to `now`
itself): the reminder is rejected and the state is unchanged. -/
theorem process_reminder_rejects_past_witness :
    process_reminder (fun _ => none) (fun t => (t, none)) (fun _ => "general")
      ⟨2025, 1, 10, 20, 0, 0, 0⟩ ⟨⟨[], []⟩, 1, []⟩ 7
      [Tok.word "en", Tok.num 0 1, Tok.word "minutos", Tok.word "apagar"] =
      PyResult.ok (⟨⟨[], []⟩, 1, []⟩, [Msg.errPast]) :=
  process_reminder_rejects_past (fun _ => none) (fun t => (t, none)) (fun _ => "general")
    ⟨2025, 1, 10, 20, 0, 0, 0⟩ ⟨⟨[], []⟩, 1, []⟩ 7
    [Tok.word "en", Tok.num 0 1, Tok.word "minutos", Tok.word "apagar"]
    ⟨2025, 1, 10, 20, 0, 0, 0⟩ [Tok.word "apagar"]
    (by decide) (by decide) (by decide)

/-- C9 counterexample.  The claim states that whenever extraction returns
a non-null instant the payload is non-empty, the placeholder being
substituted on every path including the smart-pattern path.  For the
input "recordame lunes 29" with `now` = 2025-09-01 12:00 (September 29,
2025 is a Monday), the weekday+day smart pattern consumes the entire
cleaned text and `extract_date_and_text` returns the resolved instant
with an empty payload — no placeholder is substituted on this path. -/
theorem extract_smart_path_returns_empty_payload :
    extract_date_and_text (fun _ => none) ⟨2025, 9, 1, 12, 0, 0, 0⟩
      [Tok.word "recordame", Tok.word "lunes", Tok.num 29 2] =
      PyResult.ok (some (⟨2025, 9, 29, 9, 0, 0, 0⟩, [])) := by
  decide

theorem finishFallback_payload_ne_nil (dateparse : ParseQuery → Option DateTime)
    (query : ParseQuery) (remaining : List Tok) (udt : Bool)
    (d : DateTime) (p : List Tok)
    (h : finishFallback dateparse query remaining udt = some (d, p)) : p ≠ [] := by
  unfold finishFallback at h
  cases hq : dateparse query with
  | none => rw [hq] at h; cases h
  | some parsed0 =>
    rw [hq] at h
    simp only [Option.some.injEq, Prod.mk.injEq] at h
    obtain ⟨-, hp⟩ := h
    rw [← hp]
    split
    · simp
    · rename_i hne
      exact hne

theorem fallbackExtract_payload_ne_nil (dateparse : ParseQuery → Option DateTime)
    (now : DateTime) (text : List Tok) (d : DateTime) (p : List Tok)
    (h : fallbackExtract dateparse now text = some (d, p)) : p ≠ [] := by
  unfold fallbackExtract at h
  cases h1 : findFirstBroad datePatterns text with
  | some span =>
    rw [h1] at h
    exact finishFallback_payload_ne_nil _ _ _ _ _ _ h
  | none =>
    rw [h1] at h
    cases h2 : findFirstBroad noTimePatterns text with
    | some span =>
      rw [h2] at h
      exact finishFallback_payload_ne_nil _ _ _ _ _ _ h
    | none =>
      rw [h2] at h
      cases h3 : dateparse (ParseQuery.toks text) with
      | none => rw [h3] at h; cases h
      | some parsed =>
        rw [h3] at h
        simp only [Option.some.injEq, Prod.mk.injEq] at h
        obtain ⟨-, hp⟩ := h
        rw [← hp]
        simp

/-- C9 amended.  The placeholder substitution (and the leading-"que"
cleanup) runs only on the broad-pattern / dateparser fallback section of
`extract_date_and_text`: whenever no smart pattern and no relative
pattern produces the result, a successful extraction always carries a
non-empty payload.  The smart-pattern and relative-offset paths return
the cleaned remainder as-is, which can be empty (see the
counterexample). -/
theorem extract_fallback_payload_nonempty (dateparse : ParseQuery → Option DateTime)
    (now : DateTime) (input : List Tok) (datetime_obj : DateTime) (payload : List Tok)
    (hsmart : trySmartPatterns now (cleanedText input) = PyResult.ok none)
    (hrel : tryRelativePatterns now (cleanedText input) = none)
    (hex : extract_date_and_text dateparse now input =
      PyResult.ok (some (datetime_obj, payload))) :
    payload ≠ [] := by
  unfold extract_date_and_text at hex
  simp only [hsmart, hrel, PyResult.ok.injEq] at hex
  cases hfb : fallbackExtract dateparse now (cleanedText input) with
  | none => rw [hfb] at hex; cases hex
  | some r =>
    rw [hfb] at hex
    cases hex
    exact fallbackExtract_payload_ne_nil _ _ _ _ _ hfb

set_option maxRecDepth 40000 in
/-- Every character produced by one pass of the normalization pipeline is
a fixed point of each of its three stages: the surviving (non-combining)
characters of any canonical decomposition lowercase to characters that
are NFD-atomic, non-combining and lowercase. -/
theorem uchar_step_fixed :
    ∀ c x : UChar, x ∈ nfd c → isMn x = false →
      nfd (pyLower x) = [pyLower x] ∧ isMn (pyLower x) = false ∧
        pyLower (pyLower x) = pyLower x := by
  decide

theorem normalize_core_fixed :
    ∀ l : List UChar,
      (∀ d ∈ l, nfd d = [d] ∧ isMn d = false ∧ pyLower d = d) →
      ((l.flatMap nfd).filter (fun c => !isMn c)).map pyLower = l := by
  intro l
  induction l with
  | nil => intro h; rfl
  | cons d ds ih =>
    intro h
    have hd := h d (List.mem_cons_self d ds)
    have hds := ih (fun x hx => h x (List.mem_cons_of_mem d hx))
    simp [List.flatMap_cons, hd.1, hd.2.1, hd.2.2, hds]

theorem normalize_eq_of_ne_nil (l : List UChar) (h : l ≠ []) :
    normalize_text_for_search l =
      ((l.flatMap nfd).filter (fun c => !isMn c)).map pyLower := by
  unfold normalize_text_for_search
  rw [if_neg h]

theorem mem_normalize_fixed (s : List UChar) :
    ∀ d ∈ normalize_text_for_search s,
      nfd d = [d] ∧ isMn d = false ∧ pyLower d = d := by
  intro d hd
  unfold normalize_text_for_search at hd
  split at hd
  · cases hd
  · simp only [List.mem_map, List.mem_filter, List.mem_flatMap] at hd
    obtain ⟨x, ⟨⟨c, hc, hx⟩, hmn⟩, hdx⟩ := hd
    subst hdx
    exact uchar_step_fixed c x hx (by simpa using hmn)

/-- C10.  `normalize_text_for_search` (src/handlers.py and src/db.py,
identical bodies) is idempotent over the modelled character repertoire:
a second NFD-decomposition, combining-mark strip and lowercase pass
leaves its own output unchanged, because every output character is
NFD-atomic, non-combining and already lowercase. -/
theorem normalize_text_for_search_idempotent (s : List UChar) :
    normalize_text_for_search (normalize_text_for_search s) =
      normalize_text_for_search s := by
  by_cases ho : normalize_text_for_search s = []
  · rw [ho]
    rfl
  · rw [normalize_eq_of_ne_nil _ ho]
    exact normalize_core_fixed _ (mem_normalize_fixed s)

/-- C9 amended, witnessed on "mañana comprar pan" (no smart or relative
pattern matches; the no-time broad pattern matches "mañana" and the
dateparser collaborator resolves it): the payload "comprar pan" is
non-empty. -/
theorem extract_fallback_payload_nonempty_witness :
    List.isEmpty [Tok.word "comprar", Tok.word "pan"] = false := by
  have h := extract_fallback_payload_nonempty
    (fun q => if q = ParseQuery.toks [Tok.word "mañana"]
              then some ⟨2025, 1, 11, 0, 0, 0, 0⟩ else none)
    ⟨2025, 1, 10, 20, 0, 0, 0⟩
    [Tok.word "mañana", Tok.word "comprar", Tok.word "pan"]
    ⟨2025, 1, 11, 9, 0, 0, 0⟩
    [Tok.word "comprar", Tok.word "pan"]
    (by decide) (by decide) (by decide)
  cases he : List.isEmpty [Tok.word "comprar", Tok.word "pan"]
  · rfl
  · simp at he

end ChatbotRecordatorios
